import Mathlib

/-!
Shallow embedding of src/data/gen_data.py: a batched synthetic-data
generation pipeline (practices, doctors, licenses, doctor-practice
affiliations) that bulk-loads a relational sink.

Modelling conventions:
* The Python `random` module and Faker draws are driven by an explicit
  stream of natural numbers (`Rng`); each primitive consumes draws from it.
* Dates are integers counting days relative to the generation date
  (today = 0); Faker relative offsets are modelled as 365 days per year and
  30 days per month, so "-15y" is -5475, "-10y" is -3650, "-1m" is -30 and
  "+2y" is 730.
* `random.random() < p` is modelled at percent granularity: a fresh draw
  reduced mod 100 compared against `100 * p`; only the branch taken matters
  for the properties below.
* Free-form Faker string generators (names, addresses, emails, dates of
  birth) are an injected dependency (`Fake`), mirroring the spec's design
  note that the random source is injected.
* The storage sink is a `Sink` of row lists plus a flush counter; a bulk
  insert appends one batch and returns sequential identifiers; the failure
  policy `failAt` selects which flushes raise (connectivity loss or
  constraint violation mid-run).
* Python string slicing `s[:k]`, `str.lower()` and `.replace(' ', '')`
  (single-space pattern, empty replacement) are modelled character-wise by
  `trunc`, `pyLower` and `removeSpaces`.
-/

namespace GenData

/-- Source of randomness: an infinite stream of naturals and a cursor. -/
structure Rng where
  stream : Nat → Nat
  pos : Nat

/-- Consume one draw. -/
def Rng.next (g : Rng) : Nat × Rng :=
  (g.stream g.pos, ⟨g.stream, g.pos + 1⟩)

/-- Python `random.randint(lo, hi)`: inclusive uniform range (callers keep
`lo ≤ hi`). -/
def randint (lo hi : Nat) (g : Rng) : Nat × Rng :=
  let p := Rng.next g
  (lo + p.1 % (hi + 1 - lo), p.2)

/-- Python `random.random()` reduced to percent granularity: a draw in
[0, 100). -/
def randPct (g : Rng) : Nat × Rng :=
  let p := Rng.next g
  (p.1 % 100, p.2)

/-- Python `random.choice(xs)` for nonempty `xs`. -/
def choice {α : Type} [Inhabited α] (xs : List α) (g : Rng) : α × Rng :=
  let p := Rng.next g
  (xs.getD (p.1 % xs.length) default, p.2)

/-- Python `random.sample(xs, k)` for `k ≤ xs.length`: `k` distinct
positions drawn without replacement, in draw order. -/
def sample {α : Type} : List α → Nat → Rng → List α × Rng
  | _, 0, g => ([], g)
  | [], _ + 1, g => ([], g)
  | x :: xs, k + 1, g =>
    let p := Rng.next g
    let i := p.1 % (x :: xs).length
    let y := (x :: xs).get ⟨i, Nat.mod_lt _ (Nat.succ_pos _)⟩
    let rest := sample ((x :: xs).eraseIdx i) k p.2
    (y :: rest.1, rest.2)

/-- Faker `date_between(lo, hi)`: an inclusive uniform day offset (callers
keep `lo ≤ hi`). -/
def dateBetween (lo hi : Int) (g : Rng) : Int × Rng :=
  let p := Rng.next g
  (lo + ((p.1 % ((hi - lo).toNat + 1) : Nat) : Int), p.2)

/-- Python `random.choices(LICENSE_STATUSES, weights=[0.8,0.15,0.03,0.02])`:
weighted categorical draw at percent granularity. -/
def weightedStatus (g : Rng) : String × Rng :=
  let p := Rng.next g
  let r := p.1 % 100
  (if r < 80 then ("Active") else if r < 95 then ("Expired")
   else if r < 98 then ("Suspended") else ("Revoked"), p.2)

/-- Decimal digits, for Faker `numerify`. -/
def DIGITS : List Char := ['0', '1', '2', '3', '4', '5', '6', '7', '8', '9']

/-- ASCII letters, for Faker `lexify` (its default letters vocabulary). -/
def LETTERS : List Char :=
  ['a', 'b', 'c', 'd', 'e', 'f', 'g', 'h', 'i', 'j', 'k', 'l', 'm',
   'n', 'o', 'p', 'q', 'r', 's', 't', 'u', 'v', 'w', 'x', 'y', 'z',
   'A', 'B', 'C', 'D', 'E', 'F', 'G', 'H', 'I', 'J', 'K', 'L', 'M',
   'N', 'O', 'P', 'Q', 'R', 'S', 'T', 'U', 'V', 'W', 'X', 'Y', 'Z']

/-- One random decimal digit. -/
def digitOf (n : Nat) : Char := DIGITS.getD (n % 10) '0'

/-- One random ASCII letter. -/
def letterOf (n : Nat) : Char := LETTERS.getD (n % 52) 'a'

/-- Characters of Faker `numerify('#' * k)`. -/
def numerifyChars : Nat → Rng → List Char × Rng
  | 0, g => ([], g)
  | k + 1, g =>
    let p := Rng.next g
    let rest := numerifyChars k p.2
    (digitOf p.1 :: rest.1, rest.2)

/-- Faker `numerify('#' * k)`: `k` random digits. -/
def numerify (k : Nat) (g : Rng) : String × Rng :=
  let r := numerifyChars k g
  (String.mk r.1, r.2)

/-- Characters of Faker `lexify('?' * k)`. -/
def lexifyChars : Nat → Rng → List Char × Rng
  | 0, g => ([], g)
  | k + 1, g =>
    let p := Rng.next g
    let rest := lexifyChars k p.2
    (letterOf p.1 :: rest.1, rest.2)

/-- Faker `lexify('?' * k)`: `k` random letters. -/
def lexify (k : Nat) (g : Rng) : String × Rng :=
  let r := lexifyChars k g
  (String.mk r.1, r.2)

/-- Python slicing `s[:k]` (character-wise). -/
def trunc (k : Nat) (s : String) : String := String.mk (s.data.take k)

/-- Python `str.lower()` (character-wise). -/
def pyLower (s : String) : String := String.mk (s.data.map Char.toLower)

/-- Python `str.replace(' ', '')`: drop every space. -/
def removeSpaces (s : String) : String :=
  String.mk (s.data.filter (fun c => c ≠ ' '))

/-- Configuration constant `NUM_DOCTORS` of gen_data.py. -/
def NUM_DOCTORS : Nat := 1000000

/-- Configuration constant `NUM_PRACTICES` of gen_data.py. -/
def NUM_PRACTICES : Nat := 1000

/-- Configuration constant `MAX_LICENSES_PER_DOCTOR` of gen_data.py. -/
def MAX_LICENSES_PER_DOCTOR : Nat := 3

/-- Configuration constant `MAX_PRACTICES_PER_DOCTOR` of gen_data.py. -/
def MAX_PRACTICES_PER_DOCTOR : Nat := 3

/-- The `SPECIALTIES` vocabulary of gen_data.py. -/
def SPECIALTIES : List String :=
  ["Family Medicine", "Internal Medicine", "Pediatrics", "Cardiology",
   "Dermatology", "Endocrinology", "Gastroenterology", "Neurology",
   "Obstetrics and Gynecology", "Oncology", "Ophthalmology", "Orthopedics",
   "Psychiatry", "Radiology", "Surgery", "Urology", "Emergency Medicine",
   "Anesthesiology", "Pathology", "Physical Medicine", "Rheumatology"]

/-- The `LICENSE_TYPES` vocabulary of gen_data.py. -/
def LICENSE_TYPES : List String :=
  ["Medical License", "DEA", "Board Certification", "State Controlled Substance"]

/-- The `STATES` vocabulary of gen_data.py. -/
def STATES : List String :=
  ["AL", "AK", "AZ", "AR", "CA", "CO", "CT", "DE", "FL", "GA",
   "HI", "ID", "IL", "IN", "IA", "KS", "KY", "LA", "ME", "MD",
   "MA", "MI", "MN", "MS", "MO", "MT", "NE", "NV", "NH", "NJ",
   "NM", "NY", "NC", "ND", "OH", "OK", "OR", "PA", "RI", "SC",
   "SD", "TN", "TX", "UT", "VT", "VA", "WA", "WV", "WI", "WY"]

/-- The `LICENSE_STATUSES` vocabulary of gen_data.py. -/
def LICENSE_STATUSES : List String := ["Active", "Expired", "Suspended", "Revoked"]

/-- The `ROLES` vocabulary of gen_data.py. -/
def ROLES : List String :=
  ["Primary Care Physician", "Specialist", "Consultant", "Department Head",
   "Medical Director", "Attending Physician", "Resident", "Fellow"]

/-- The practice-name suffix vocabulary used in `generate_practices`. -/
def PRACTICE_SUFFIXES : List String :=
  ["Medical Center", "Clinic", "Healthcare", "Hospital", "Medical Group", "Physicians"]

/-- One row of the `practices` table, as built by `generate_practices`. -/
structure PracticeRow where
  practiceName : String
  addressLine1 : String
  addressLine2 : Option String
  city : String
  state : String
  zipCode : String
  phone : String
  email : String
  website : Option String
  deriving DecidableEq, Repr

/-- One row of the `doctors` table, as built by `generate_doctors`. -/
structure DoctorRow where
  firstName : String
  lastName : String
  specialty : String
  email : String
  phone : String
  dateOfBirth : Int
  deriving DecidableEq, Repr

/-- One row of the `licenses` table, as built by `generate_licenses`. -/
structure LicenseRow where
  doctorId : Nat
  licenseNumber : String
  licenseType : String
  state : String
  issueDate : Int
  expiryDate : Int
  status : String
  deriving DecidableEq, Repr

/-- One row of the `doctor_practices` table, as built by
`generate_doctor_practices`. -/
structure AffilRow where
  doctorId : Nat
  practiceId : Nat
  role : String
  startDate : Int
  endDate : Option Int
  isPrimary : Bool
  hoursPerWeek : Nat
  deriving DecidableEq, Repr

/-- The injected Faker value generators whose output content is free-form
(the pipeline only threads their strings through, possibly truncating). -/
structure Fake where
  company : Rng → String × Rng
  streetAddress : Rng → String × Rng
  secondaryAddress : Rng → String × Rng
  city : Rng → String × Rng
  zipcode : Rng → String × Rng
  phoneNumber : Rng → String × Rng
  companyEmail : Rng → String × Rng
  firstName : Rng → String × Rng
  lastName : Rng → String × Rng
  email : Rng → String × Rng
  dateOfBirth : Rng → Int × Rng

/-- One iteration of the practice loop body (gen_data.py lines 86-98):
the tuple pushed onto `practice_batch`. -/
def mkPractice (fk : Fake) (g : Rng) : PracticeRow × Rng :=
  let comp := fk.company g
  let suf := choice PRACTICE_SUFFIXES comp.2
  let name := comp.1 ++ (" ") ++ suf.1
  let street := fk.streetAddress suf.2
  let p1 := randPct street.2
  let line2 :=
    if p1.1 < 30 then
      let a := fk.secondaryAddress p1.2
      (some a.1, a.2)
    else ((none : Option String), p1.2)
  let cty := fk.city line2.2
  let st := choice STATES cty.2
  let zip := fk.zipcode st.2
  let ph := fk.phoneNumber zip.2
  let em := fk.companyEmail ph.2
  let p2 := randPct em.2
  let site :=
    if p2.1 < 80 then
      some (trunc 255 ((("www.") ++ removeSpaces (pyLower name) ++ (".com"))))
    else none
  ({ practiceName := name
     addressLine1 := street.1
     addressLine2 := line2.1
     city := cty.1
     state := st.1
     zipCode := trunc 10 zip.1
     phone := trunc 20 ph.1
     email := trunc 255 em.1
     website := site }, p2.2)

/-- One iteration of the doctor loop body (gen_data.py lines 125-132):
the tuple pushed onto `doctor_batch`. Note the email is stored as Faker
produced it, with no truncation. -/
def mkDoctor (fk : Fake) (g : Rng) : DoctorRow × Rng :=
  let fn := fk.firstName g
  let ln := fk.lastName fn.2
  let sp := choice SPECIALTIES ln.2
  let em := fk.email sp.2
  let ph := fk.phoneNumber em.2
  let dob := fk.dateOfBirth ph.2
  ({ firstName := fn.1
     lastName := ln.1
     specialty := sp.1
     email := em.1
     phone := trunc 20 ph.1
     dateOfBirth := dob.1 }, dob.2)

/-- One license tuple (gen_data.py lines 163-175): a single state draw
feeds both the license-number prefix and the issuing-state column; the
issue date is drawn from the 15-year lookback window and the expiry date
adds 365 to 3650 days. -/
def mkLicense (_fk : Fake) (d : Nat) (g : Rng) : LicenseRow × Rng :=
  let st := choice STATES g
  let issue := dateBetween (-5475) 0 st.2
  let delta := randint 365 3650 issue.2
  let digits := numerify 6 delta.2
  let letters := lexify 3 digits.2
  let lt := choice LICENSE_TYPES letters.2
  let stt := weightedStatus lt.2
  ({ doctorId := d
     licenseNumber := st.1 ++ ("-") ++ digits.1 ++ ("-") ++ letters.1
     licenseType := lt.1
     state := st.1
     issueDate := issue.1
     expiryDate := issue.1 + (delta.1 : Int)
     status := stt.1 }, stt.2)

/-- One affiliation tuple (gen_data.py lines 215-226): start date in the
last 10 years at least 1 month back; end date null with probability 0.8,
else drawn from `date_between(start_date, "+2y")` whose upper bound is two
years after the generation date; `is_primary` is `i == 0`. -/
def mkAffil (_fk : Fake) (d pid : Nat) (isFirst : Bool) (g : Rng) : AffilRow × Rng :=
  let start := dateBetween (-3650) (-30) g
  let pc := randPct start.2
  let endD :=
    if pc.1 < 80 then ((none : Option Int), pc.2)
    else
      let e := dateBetween start.1 730 pc.2
      (some e.1, e.2)
  let role := choice ROLES endD.2
  let hrs := randint 4 40 role.2
  ({ doctorId := d
     practiceId := pid
     role := role.1
     startDate := start.1
     endDate := endD.1
     isPrimary := isFirst
     hoursPerWeek := hrs.1 }, hrs.2)

/-- The storage sink: the four tables, plus a flush counter and a failure
policy deciding which bulk-insert flushes raise (modelling mid-run
constraint violations or connectivity loss). Identifiers are the serial
positions the database assigns on insert. -/
structure Sink where
  practices : List PracticeRow
  doctors : List DoctorRow
  licenses : List LicenseRow
  doctorPractices : List AffilRow
  flushCount : Nat
  failAt : Nat → Bool

/-- A sink whose flushes never fail. -/
def noFail (s : Sink) : Prop := ∀ n, s.failAt n = false

/-- The identifiers `RETURNING` hands back for a batch of `k` rows inserted
after `base` existing rows: `base+1, ..., base+k` in submission order. -/
def idsFrom : Nat → Nat → List Nat
  | _, 0 => []
  | b, k + 1 => (b + 1) :: idsFrom (b + 1) k

/-- One committed bulk insert into `practices` (gen_data.py lines 101-112),
returning the assigned identifiers, or raising per the failure policy. -/
def flushPractices (batch : List PracticeRow) (s : Sink) : Except Sink (List Nat × Sink) :=
  if s.failAt s.flushCount then .error s
  else .ok (idsFrom s.practices.length batch.length,
            { s with practices := s.practices ++ batch, flushCount := s.flushCount + 1 })

/-- One committed bulk insert into `doctors` (gen_data.py lines 135-145). -/
def flushDoctors (batch : List DoctorRow) (s : Sink) : Except Sink (List Nat × Sink) :=
  if s.failAt s.flushCount then .error s
  else .ok (idsFrom s.doctors.length batch.length,
            { s with doctors := s.doctors ++ batch, flushCount := s.flushCount + 1 })

/-- One committed bulk insert into `licenses` (gen_data.py lines 179-187
and 191-198); no identifiers are returned. -/
def flushLicenses (batch : List LicenseRow) (s : Sink) : Except Sink Sink :=
  if s.failAt s.flushCount then .error s
  else .ok { s with licenses := s.licenses ++ batch, flushCount := s.flushCount + 1 }

/-- One committed bulk insert into `doctor_practices` (gen_data.py lines
230-238 and 242-249); no identifiers are returned. -/
def flushAffiliations (batch : List AffilRow) (s : Sink) : Except Sink Sink :=
  if s.failAt s.flushCount then .error s
  else .ok { s with doctorPractices := s.doctorPractices ++ batch, flushCount := s.flushCount + 1 }

/-- The practice loop of `generate_practices`, indexed by the number of
iterations still to run (`r = 0` means `i` has reached `NUM_PRACTICES`);
the source flushes when the batch reaches `batch_size` or on the final
index. -/
def genPracticesAux (fk : Fake) (bs : Nat) :
    Nat → List PracticeRow → List Nat → Sink → Rng → Except Sink (List Nat × Sink × Rng)
  | 0, _batch, ids, s, g => .ok (ids, s, g)
  | r + 1, batch, ids, s, g =>
    let p := mkPractice fk g
    let batch1 := batch ++ [p.1]
    if bs ≤ batch1.length ∨ r = 0 then
      match flushPractices batch1 s with
      | .error s1 => .error s1
      | .ok rs => genPracticesAux fk bs r [] (ids ++ rs.1) rs.2 p.2
    else genPracticesAux fk bs r batch1 ids s p.2

/-- `generate_practices` (gen_data.py lines 78-115): generate `n` practice
rows, batch-insert them, and return the captured identifier list. -/
def generate_practices (fk : Fake) (n bs : Nat) (s : Sink) (g : Rng) :
    Except Sink (List Nat × Sink × Rng) :=
  genPracticesAux fk bs n [] [] s g

/-- The doctor loop of `generate_doctors`, indexed by remaining
iterations. -/
def genDoctorsAux (fk : Fake) (bs : Nat) :
    Nat → List DoctorRow → List Nat → Sink → Rng → Except Sink (List Nat × Sink × Rng)
  | 0, _batch, ids, s, g => .ok (ids, s, g)
  | r + 1, batch, ids, s, g =>
    let p := mkDoctor fk g
    let batch1 := batch ++ [p.1]
    if bs ≤ batch1.length ∨ r = 0 then
      match flushDoctors batch1 s with
      | .error s1 => .error s1
      | .ok rs => genDoctorsAux fk bs r [] (ids ++ rs.1) rs.2 p.2
    else genDoctorsAux fk bs r batch1 ids s p.2

/-- `generate_doctors` (gen_data.py lines 117-149). -/
def generate_doctors (fk : Fake) (n bs : Nat) (s : Sink) (g : Rng) :
    Except Sink (List Nat × Sink × Rng) :=
  genDoctorsAux fk bs n [] [] s g

/-- Inner license loop (`for _ in range(num_licenses)`), carrying the
pending batch; a flush fires as soon as the batch reaches `bs`. -/
def licInner (fk : Fake) (bs : Nat) (d : Nat) :
    Nat → List LicenseRow → Sink → Rng → Except Sink (List LicenseRow × Sink × Rng)
  | 0, batch, s, g => .ok (batch, s, g)
  | k + 1, batch, s, g =>
    let p := mkLicense fk d g
    let batch1 := batch ++ [p.1]
    if bs ≤ batch1.length then
      match flushLicenses batch1 s with
      | .error s1 => .error s1
      | .ok s1 => licInner fk bs d k [] s1 p.2
    else licInner fk bs d k batch1 s p.2

/-- Outer license loop (`for doctor_id in doctor_ids`): each doctor draws
`randint(1, MAX_LICENSES_PER_DOCTOR)` licenses. -/
def licOuter (fk : Fake) (maxL bs : Nat) :
    List Nat → List LicenseRow → Sink → Rng → Except Sink (List LicenseRow × Sink × Rng)
  | [], batch, s, g => .ok (batch, s, g)
  | d :: ds, batch, s, g =>
    let pk := randint 1 maxL g
    match licInner fk bs d pk.1 batch s pk.2 with
    | .error s1 => .error s1
    | .ok r => licOuter fk maxL bs ds r.1 r.2.1 r.2.2

/-- `generate_licenses` (gen_data.py lines 151-200), including the final
flush of any remaining partial batch. -/
def generate_licenses (fk : Fake) (maxL bs : Nat) (ds : List Nat) (s : Sink) (g : Rng) :
    Except Sink (Sink × Rng) :=
  match licOuter fk maxL bs ds [] s g with
  | .error s1 => .error s1
  | .ok r =>
    if r.1.isEmpty then .ok (r.2.1, r.2.2)
    else
      match flushLicenses r.1 r.2.1 with
      | .error s1 => .error s1
      | .ok s2 => .ok (s2, r.2.2)

/-- Inner affiliation loop (`for i, practice_id in
enumerate(doctor_practices)`): `i` is the enumeration index and the row is
primary exactly when `i == 0`. -/
def affInner (fk : Fake) (bs : Nat) (d : Nat) :
    List Nat → Nat → List AffilRow → Sink → Rng → Except Sink (List AffilRow × Sink × Rng)
  | [], _, batch, s, g => .ok (batch, s, g)
  | pid :: rest, i, batch, s, g =>
    let p := mkAffil fk d pid (i == 0) g
    let batch1 := batch ++ [p.1]
    if bs ≤ batch1.length then
      match flushAffiliations batch1 s with
      | .error s1 => .error s1
      | .ok s1 => affInner fk bs d rest (i + 1) [] s1 p.2
    else affInner fk bs d rest (i + 1) batch1 s p.2

/-- Outer affiliation loop: each doctor draws
`randint(1, MAX_PRACTICES_PER_DOCTOR)` and samples that many distinct
practice identifiers, clamped to the number available. -/
def affOuter (fk : Fake) (maxP bs : Nat) (pids : List Nat) :
    List Nat → List AffilRow → Sink → Rng → Except Sink (List AffilRow × Sink × Rng)
  | [], batch, s, g => .ok (batch, s, g)
  | d :: ds, batch, s, g =>
    let pk := randint 1 maxP g
    let chosen := sample pids (min pk.1 pids.length) pk.2
    match affInner fk bs d chosen.1 0 batch s chosen.2 with
    | .error s1 => .error s1
    | .ok r => affOuter fk maxP bs pids ds r.1 r.2.1 r.2.2

/-- `generate_doctor_practices` (gen_data.py lines 202-251), including the
final flush of any remaining partial batch. -/
def generate_doctor_practices (fk : Fake) (maxP bs : Nat) (ds pids : List Nat)
    (s : Sink) (g : Rng) : Except Sink (Sink × Rng) :=
  match affOuter fk maxP bs pids ds [] s g with
  | .error s1 => .error s1
  | .ok r =>
    if r.1.isEmpty then .ok (r.2.1, r.2.2)
    else
      match flushAffiliations r.1 r.2.1 with
      | .error s1 => .error s1
      | .ok s2 => .ok (s2, r.2.2)

/-- `clear_tables` (gen_data.py lines 71-76): `TRUNCATE ... RESTART
IDENTITY CASCADE` empties the four tables and resets the identifier
sequences (identifiers here restart implicitly, being list positions). -/
def clear_tables (s : Sink) : Sink :=
  { s with practices := [], doctors := [], licenses := [], doctorPractices := [] }

/-- Terminal states of one invocation of `main`. -/
inductive Outcome where
  | connError
  | cancelled
  | flushError
  | done
  deriving DecidableEq, Repr

/-- The configuration surface consumed by the pipeline: target counts,
per-doctor maxima, and the per-entity batch sizes. -/
structure Config where
  numDoctors : Nat
  numPractices : Nat
  maxLicensesPerDoctor : Nat
  maxPracticesPerDoctor : Nat
  practiceBatchSize : Nat
  doctorBatchSize : Nat
  licenseBatchSize : Nat
  affiliationBatchSize : Nat

/-- The configuration values hard-coded in gen_data.py. -/
def defaultConfig : Config :=
  { numDoctors := NUM_DOCTORS
    numPractices := NUM_PRACTICES
    maxLicensesPerDoctor := MAX_LICENSES_PER_DOCTOR
    maxPracticesPerDoctor := MAX_PRACTICES_PER_DOCTOR
    practiceBatchSize := 100
    doctorBatchSize := 10000
    licenseBatchSize := 100000
    affiliationBatchSize := 100000 }

/-- `main` (gen_data.py lines 271-298): connect, ask for confirmation,
clear, then run the four stages in dependency order; any flush failure
propagates and aborts the run with the sink as the failed stage left it. -/
def main (cfg : Config) (fk : Fake) (connectOk : Bool) (answer : String)
    (s0 : Sink) (g : Rng) : Outcome × Sink :=
  if connectOk = false then (.connError, s0)
  else if pyLower answer ≠ ("y") then (.cancelled, s0)
  else
    let s1 := clear_tables s0
    match generate_practices fk cfg.numPractices cfg.practiceBatchSize s1 g with
    | .error s => (.flushError, s)
    | .ok rp =>
      match generate_doctors fk cfg.numDoctors cfg.doctorBatchSize rp.2.1 rp.2.2 with
      | .error s => (.flushError, s)
      | .ok rd =>
        match generate_licenses fk cfg.maxLicensesPerDoctor cfg.licenseBatchSize
            rd.1 rd.2.1 rd.2.2 with
        | .error s => (.flushError, s)
        | .ok rl =>
          match generate_doctor_practices fk cfg.maxPracticesPerDoctor
              cfg.affiliationBatchSize rd.1 rp.1 rl.1 rl.2 with
          | .error s => (.flushError, s)
          | .ok ra => (.done, ra.1)

/-- Reference (unbatched) stream of practice rows: the rows
`generate_practices` pushes, in generation order, with the random state
threaded identically. -/
def pPracticeRows (fk : Fake) : Nat → Rng → List PracticeRow × Rng
  | 0, g => ([], g)
  | r + 1, g =>
    let p := mkPractice fk g
    let rest := pPracticeRows fk r p.2
    (p.1 :: rest.1, rest.2)

/-- Reference (unbatched) stream of doctor rows. -/
def pDoctorRows (fk : Fake) : Nat → Rng → List DoctorRow × Rng
  | 0, g => ([], g)
  | r + 1, g =>
    let p := mkDoctor fk g
    let rest := pDoctorRows fk r p.2
    (p.1 :: rest.1, rest.2)

/-- Reference stream of one doctor's license rows (`k` of them). -/
def licRowsAux (fk : Fake) (d : Nat) : Nat → Rng → List LicenseRow × Rng
  | 0, g => ([], g)
  | k + 1, g =>
    let p := mkLicense fk d g
    let rest := licRowsAux fk d k p.2
    (p.1 :: rest.1, rest.2)

/-- Reference (unbatched) stream of all license rows over a doctor list. -/
def pLicenses (fk : Fake) (maxL : Nat) : List Nat → Rng → List LicenseRow × Rng
  | [], g => ([], g)
  | d :: ds, g =>
    let pk := randint 1 maxL g
    let rows := licRowsAux fk d pk.1 pk.2
    let rest := pLicenses fk maxL ds rows.2
    (rows.1 ++ rest.1, rest.2)

/-- Reference stream of one doctor's affiliation rows over the sampled
practice list, carrying the enumeration index. -/
def affRowsAux (fk : Fake) (d : Nat) : List Nat → Nat → Rng → List AffilRow × Rng
  | [], _, g => ([], g)
  | pid :: rest, i, g =>
    let p := mkAffil fk d pid (i == 0) g
    let rows := affRowsAux fk d rest (i + 1) p.2
    (p.1 :: rows.1, rows.2)

/-- Reference (unbatched) stream of all affiliation rows over a doctor
list. -/
def pAffils (fk : Fake) (maxP : Nat) (pids : List Nat) : List Nat → Rng → List AffilRow × Rng
  | [], g => ([], g)
  | d :: ds, g =>
    let pk := randint 1 maxP g
    let chosen := sample pids (min pk.1 pids.length) pk.2
    let rows := affRowsAux fk d chosen.1 0 chosen.2
    let rest := pAffils fk maxP pids ds rows.2
    (rows.1 ++ rest.1, rest.2)

/-- What the practice stage may do to the sink, on any outcome: append
practice rows, leave every other table alone. -/
def pracStep (s s' : Sink) : Prop :=
  s'.doctors = s.doctors ∧ s'.licenses = s.licenses ∧
  s'.doctorPractices = s.doctorPractices ∧ ∃ t, s'.practices = s.practices ++ t

/-- What the doctor stage may do to the sink, on any outcome. -/
def docStep (s s' : Sink) : Prop :=
  s'.practices = s.practices ∧ s'.licenses = s.licenses ∧
  s'.doctorPractices = s.doctorPractices ∧ ∃ t, s'.doctors = s.doctors ++ t

/-- What the license stage may do to the sink, on any outcome: append
license rows, leave every other table alone. -/
def licStep (s s' : Sink) : Prop :=
  s'.practices = s.practices ∧ s'.doctors = s.doctors ∧
  s'.doctorPractices = s.doctorPractices ∧ ∃ t, s'.licenses = s.licenses ++ t

/-- What the affiliation stage may do to the sink, on any outcome. -/
def affStep (s s' : Sink) : Prop :=
  s'.practices = s.practices ∧ s'.doctors = s.doctors ∧
  s'.licenses = s.licenses ∧ ∃ t, s'.doctorPractices = s.doctorPractices ++ t

/-- A concrete injected Faker whose free-form generators return fixed short
strings and consume no randomness; used to evaluate the pipeline on
concrete inputs. -/
def fkW : Fake :=
  { company := fun g => (("C"), g)
    streetAddress := fun g => (("S"), g)
    secondaryAddress := fun g => (("A"), g)
    city := fun g => (("T"), g)
    zipcode := fun g => (("Z"), g)
    phoneNumber := fun g => (("P"), g)
    companyEmail := fun g => (("E"), g)
    firstName := fun g => (("F"), g)
    lastName := fun g => (("L"), g)
    email := fun g => (("M"), g)
    dateOfBirth := fun g => (0, g) }

/-- A 256-character string: longer than the 255-character storage width. -/
def longEmail : String := String.mk (List.replicate 256 'a')

/-- A concrete injected Faker producing a doctor email wider than 255
characters. -/
def fkLong : Fake := { fkW with email := fun g => (longEmail, g) }

/-- The all-zero draw stream. -/
def g0 : Rng := { stream := fun _ => 0, pos := 0 }

/-- A draw stream chosen so that one doctor receives two affiliations, the
first with an end date equal to its start date and the second with an end
date more than two years after its start date. -/
def gC3 : Rng :=
  { stream := fun i => [1, 0, 0, 0, 80, 0, 0, 0, 0, 80, 4000, 0, 0].getD i 0, pos := 0 }

/-- A draw stream for the flush-failure scenario. -/
def gW : Rng := { stream := fun i => [0, 30, 0, 80].getD i 0, pos := 0 }

/-- An empty sink whose flushes never fail. -/
def sNF : Sink :=
  { practices := [], doctors := [], licenses := [], doctorPractices := []
    flushCount := 0, failAt := fun _ => false }

/-- An empty sink whose third flush (index 2) raises. -/
def s0W : Sink :=
  { practices := [], doctors := [], licenses := [], doctorPractices := []
    flushCount := 0, failAt := fun n => n == 2 }

/-- A small configuration: one practice, one doctor, batch size 1
everywhere. -/
def cfgW : Config :=
  { numDoctors := 1
    numPractices := 1
    maxLicensesPerDoctor := 3
    maxPracticesPerDoctor := 3
    practiceBatchSize := 1
    doctorBatchSize := 1
    licenseBatchSize := 1
    affiliationBatchSize := 1 }

/-- The concrete affiliation run over doctor 7 and practices 1 and 2 with
the `gC3` stream. -/
def runA : Sink × Rng :=
  match generate_doctor_practices fkW 3 100000 [7] [1, 2] sNF gC3 with
  | .ok r => r
  | .error s1 => (s1, gC3)

/-- The concrete license run over doctor 7 with the all-zero stream. -/
def runL : Sink × Rng :=
  match generate_licenses fkW 3 100000 [7] sNF g0 with
  | .ok r => r
  | .error s1 => (s1, g0)

/-- The concrete doctor run with the wide-email Faker. -/
def c4res : List Nat × Sink × Rng :=
  match generate_doctors fkLong 1 1 sNF g0 with
  | .ok r => r
  | .error s1 => ([], s1, g0)

/-- Practice stage of the flush-failure scenario. -/
def w8p : List Nat × Sink × Rng :=
  match generate_practices fkW 1 1 (clear_tables s0W) gW with
  | .ok r => r
  | .error s1 => ([], s1, gW)

/-- Doctor stage of the flush-failure scenario. -/
def w8d : List Nat × Sink × Rng :=
  match generate_doctors fkW 1 1 w8p.2.1 w8p.2.2 with
  | .ok r => r
  | .error s1 => ([], s1, gW)

/-- The sink the failing license flush leaves behind in the flush-failure
scenario. -/
def w8e : Sink :=
  match generate_licenses fkW 3 1 w8d.1 w8d.2.1 w8d.2.2 with
  | .error s1 => s1
  | .ok r => r.1

/-! Basic facts about the random primitives. -/

theorem getD_mem_of_lt {α : Type} (l : List α) (i : Nat) (d : α) (h : i < l.length) :
    l.getD i d ∈ l := by
  have he : l.getD i d = l[i] := by
    simp [List.getD, List.getElem?_eq_getElem h]
  rw [he]
  exact List.getElem_mem h

theorem randint_bounds (lo hi : Nat) (g : Rng) (h : lo ≤ hi) :
    lo ≤ (randint lo hi g).1 ∧ (randint lo hi g).1 ≤ hi := by
  have he : (randint lo hi g).1 = lo + (Rng.next g).1 % (hi + 1 - lo) := rfl
  have hm : (Rng.next g).1 % (hi + 1 - lo) < hi + 1 - lo := Nat.mod_lt _ (by omega)
  omega

theorem choice_mem {α : Type} [Inhabited α] (xs : List α) (g : Rng) (h : xs ≠ []) :
    (choice xs g).1 ∈ xs := by
  have hl : 0 < xs.length := List.length_pos.mpr h
  unfold choice
  exact getD_mem_of_lt _ _ _ (Nat.mod_lt _ hl)

theorem dateBetween_bounds (lo hi : Int) (g : Rng) (h : lo ≤ hi) :
    lo ≤ (dateBetween lo hi g).1 ∧ (dateBetween lo hi g).1 ≤ hi := by
  have he : (dateBetween lo hi g).1
      = lo + (((Rng.next g).1 % ((hi - lo).toNat + 1) : Nat) : Int) := rfl
  have h1 : ((hi - lo).toNat : Int) = hi - lo := Int.toNat_of_nonneg (by omega)
  have h2 : (Rng.next g).1 % ((hi - lo).toNat + 1) < (hi - lo).toNat + 1 :=
    Nat.mod_lt _ (by omega)
  omega

theorem sample_length {α : Type} :
    ∀ (k : Nat) (xs : List α) (g : Rng), (sample xs k g).1.length = min k xs.length := by
  intro k
  induction k with
  | zero => intro xs g; cases xs <;> simp [sample]
  | succ k ih =>
    intro xs g
    cases xs with
    | nil => simp [sample]
    | cons x xs =>
      have hi : (Rng.next g).1 % (xs.length + 1) < xs.length + 1 :=
        Nat.mod_lt _ (Nat.succ_pos _)
      simp only [sample, ih, List.length_cons]
      rw [List.length_eraseIdx]
      simp only [List.length_cons]
      rw [if_pos hi]
      omega

theorem sample_subset {α : Type} :
    ∀ (k : Nat) (xs : List α) (g : Rng), ∀ y ∈ (sample xs k g).1, y ∈ xs := by
  intro k
  induction k with
  | zero => intro xs g y hy; cases xs <;> simp [sample] at hy
  | succ k ih =>
    intro xs g y hy
    cases xs with
    | nil => simp [sample] at hy
    | cons x xs =>
      simp only [sample, List.mem_cons] at hy
      rcases hy with hy | hy
      · rw [hy]; exact List.get_mem _ _ _
      · exact (List.eraseIdx_sublist (x :: xs) _).subset (ih _ _ _ hy)

theorem getElem_not_mem_eraseIdx {α : Type} :
    ∀ (l : List α) (i : Nat) (h : i < l.length), l.Nodup → l[i] ∉ l.eraseIdx i := by
  intro l
  induction l with
  | nil => intro i h; simp at h
  | cons x xs ih =>
    intro i h hn
    obtain ⟨hx, hxs⟩ := List.nodup_cons.mp hn
    cases i with
    | zero => simpa using hx
    | succ j =>
      have hj : j < xs.length := by simpa using h
      simp only [List.getElem_cons_succ, List.eraseIdx_cons_succ, List.mem_cons]
      rintro (he | hm)
      · exact hx (he ▸ List.getElem_mem hj)
      · exact ih j hj hxs hm

theorem sample_nodup {α : Type} :
    ∀ (k : Nat) (xs : List α) (g : Rng), xs.Nodup → (sample xs k g).1.Nodup := by
  intro k
  induction k with
  | zero => intro xs g _; cases xs <;> simp [sample]
  | succ k ih =>
    intro xs g hn
    cases xs with
    | nil => simp [sample]
    | cons x xs =>
      simp only [sample, List.nodup_cons]
      refine ⟨fun hmem => ?_, ih _ _ (((x :: xs).eraseIdx_sublist _).nodup hn)⟩
      have hsub := sample_subset k ((x :: xs).eraseIdx ((Rng.next g).1 % (x :: xs).length))
        (Rng.next g).2 _ hmem
      have hi : (Rng.next g).1 % (x :: xs).length < (x :: xs).length :=
        Nat.mod_lt _ (Nat.succ_pos _)
      exact getElem_not_mem_eraseIdx (x :: xs) _ hi hn (by simpa [List.get_eq_getElem] using hsub)

/-! Facts about the identifier sequences a bulk insert returns. -/

theorem idsFrom_length : ∀ (k b : Nat), (idsFrom b k).length = k := by
  intro k
  induction k with
  | zero => intro b; simp [idsFrom]
  | succ k ih => intro b; simp [idsFrom, ih]

theorem idsFrom_append : ∀ (m b n : Nat), idsFrom b (m + n) = idsFrom b m ++ idsFrom (b + m) n := by
  intro m
  induction m with
  | zero => intro b n; simp [idsFrom]
  | succ m ih =>
    intro b n
    have h1 : m + 1 + n = (m + n) + 1 := by omega
    have h2 : b + (m + 1) = (b + 1) + m := by omega
    rw [h1]
    simp only [idsFrom, ih (b + 1) n, h2, List.cons_append]

theorem idsFrom_concat (b m n : Nat) :
    idsFrom b m ++ idsFrom (b + m) n = idsFrom b (m + n) :=
  (idsFrom_append m b n).symm

theorem mem_idsFrom : ∀ (k b x : Nat), x ∈ idsFrom b k → b + 1 ≤ x ∧ x ≤ b + k := by
  intro k
  induction k with
  | zero => intro b x hx; simp [idsFrom] at hx
  | succ k ih =>
    intro b x hx
    simp only [idsFrom, List.mem_cons] at hx
    rcases hx with hx | hx
    · omega
    · have := ih (b + 1) x hx; omega

theorem idsFrom_nodup : ∀ (k b : Nat), (idsFrom b k).Nodup := by
  intro k
  induction k with
  | zero => intro b; simp [idsFrom]
  | succ k ih =>
    intro b
    simp only [idsFrom, List.nodup_cons]
    exact ⟨fun hmem => by have := mem_idsFrom k (b + 1) (b + 1) hmem; omega, ih (b + 1)⟩

/-! Facts about the generated character strings. -/

theorem numerifyChars_length : ∀ (k : Nat) (g : Rng), (numerifyChars k g).1.length = k := by
  intro k
  induction k with
  | zero => intro g; simp [numerifyChars]
  | succ k ih => intro g; simp [numerifyChars, ih]

theorem digitOf_isDigit (n : Nat) : (digitOf n).isDigit = true := by
  have hm : n % 10 < DIGITS.length := by
    have : n % 10 < 10 := Nat.mod_lt _ (by omega)
    simpa [DIGITS]
  have hmem : digitOf n ∈ DIGITS := getD_mem_of_lt _ _ _ hm
  have hall : ∀ c ∈ DIGITS, c.isDigit = true := by decide
  exact hall _ hmem

theorem numerifyChars_digits :
    ∀ (k : Nat) (g : Rng), ∀ c ∈ (numerifyChars k g).1, c.isDigit = true := by
  intro k
  induction k with
  | zero => intro g c hc; simp [numerifyChars] at hc
  | succ k ih =>
    intro g c hc
    simp only [numerifyChars, List.mem_cons] at hc
    rcases hc with hc | hc
    · rw [hc]; exact digitOf_isDigit _
    · exact ih _ _ hc

theorem lexifyChars_length : ∀ (k : Nat) (g : Rng), (lexifyChars k g).1.length = k := by
  intro k
  induction k with
  | zero => intro g; simp [lexifyChars]
  | succ k ih => intro g; simp [lexifyChars, ih]

theorem letterOf_isAlpha (n : Nat) : (letterOf n).isAlpha = true := by
  have hm : n % 52 < LETTERS.length := by
    have : n % 52 < 52 := Nat.mod_lt _ (by omega)
    simpa [LETTERS]
  have hmem : letterOf n ∈ LETTERS := getD_mem_of_lt _ _ _ hm
  have hall : ∀ c ∈ LETTERS, c.isAlpha = true := by decide
  exact hall _ hmem

theorem lexifyChars_alpha :
    ∀ (k : Nat) (g : Rng), ∀ c ∈ (lexifyChars k g).1, c.isAlpha = true := by
  intro k
  induction k with
  | zero => intro g c hc; simp [lexifyChars] at hc
  | succ k ih =>
    intro g c hc
    simp only [lexifyChars, List.mem_cons] at hc
    rcases hc with hc | hc
    · rw [hc]; exact letterOf_isAlpha _
    · exact ih _ _ hc

theorem trunc_length_le (k : Nat) (s : String) : (trunc k s).length ≤ k := by
  show (s.data.take k).length ≤ k
  simp

/-! Behaviour of the flushes on a sink whose failure policy never fires. -/

theorem flushPractices_noFail (batch : List PracticeRow) (s : Sink) (h : noFail s) :
    flushPractices batch s
      = .ok (idsFrom s.practices.length batch.length,
             { s with practices := s.practices ++ batch, flushCount := s.flushCount + 1 }) := by
  simp [flushPractices, h s.flushCount]

theorem flushDoctors_noFail (batch : List DoctorRow) (s : Sink) (h : noFail s) :
    flushDoctors batch s
      = .ok (idsFrom s.doctors.length batch.length,
             { s with doctors := s.doctors ++ batch, flushCount := s.flushCount + 1 }) := by
  simp [flushDoctors, h s.flushCount]

theorem flushLicenses_noFail (batch : List LicenseRow) (s : Sink) (h : noFail s) :
    flushLicenses batch s
      = .ok { s with licenses := s.licenses ++ batch, flushCount := s.flushCount + 1 } := by
  simp [flushLicenses, h s.flushCount]

theorem flushAffiliations_noFail (batch : List AffilRow) (s : Sink) (h : noFail s) :
    flushAffiliations batch s
      = .ok { s with doctorPractices := s.doctorPractices ++ batch,
                     flushCount := s.flushCount + 1 } := by
  simp [flushAffiliations, h s.flushCount]

/-! Bridge between the batched practice loop and the reference row
stream: with no flush failure the loop inserts exactly the generated rows
in order and returns the consecutive identifiers. -/

theorem genPracticesAux_step_flush (fk : Fake) (bs r : Nat) (batch : List PracticeRow)
    (ids : List Nat) (s : Sink) (g : Rng) (h : noFail s)
    (hb : bs ≤ (batch ++ [(mkPractice fk g).1]).length ∨ r = 0) :
    genPracticesAux fk bs (r + 1) batch ids s g
      = genPracticesAux fk bs r []
          (ids ++ idsFrom s.practices.length (batch ++ [(mkPractice fk g).1]).length)
          { s with practices := s.practices ++ (batch ++ [(mkPractice fk g).1]), flushCount := s.flushCount + 1 }
          (mkPractice fk g).2 := by
  conv_lhs => simp only [genPracticesAux]
  rw [if_pos hb, flushPractices_noFail _ _ h]

theorem genPracticesAux_step_skip (fk : Fake) (bs r : Nat) (batch : List PracticeRow)
    (ids : List Nat) (s : Sink) (g : Rng)
    (hb : ¬ (bs ≤ (batch ++ [(mkPractice fk g).1]).length ∨ r = 0)) :
    genPracticesAux fk bs (r + 1) batch ids s g
      = genPracticesAux fk bs r (batch ++ [(mkPractice fk g).1]) ids s (mkPractice fk g).2 := by
  conv_lhs => simp only [genPracticesAux]
  rw [if_neg hb]

theorem genPracticesAux_ok (fk : Fake) (bs : Nat) :
    ∀ (r : Nat) (batch : List PracticeRow) (ids : List Nat) (s : Sink) (g : Rng),
      noFail s →
      ∃ s', genPracticesAux fk bs (r + 1) batch ids s g
              = .ok (ids ++ idsFrom s.practices.length (batch.length + r + 1), s',
                     (pPracticeRows fk (r + 1) g).2) ∧
        s'.practices = s.practices ++ batch ++ (pPracticeRows fk (r + 1) g).1 ∧
        s'.doctors = s.doctors ∧ s'.licenses = s.licenses ∧
        s'.doctorPractices = s.doctorPractices ∧ s'.failAt = s.failAt := by
  intro r
  induction r with
  | zero =>
    intro batch ids s g h
    refine ⟨{ s with practices := s.practices ++ (batch ++ [(mkPractice fk g).1]), flushCount := s.flushCount + 1 }, ?_, ?_, rfl, rfl, rfl, rfl⟩
    · rw [genPracticesAux_step_flush fk bs 0 batch ids s g h (Or.inr rfl)]
      simp [genPracticesAux, pPracticeRows]
    · simp [pPracticeRows]
  | succ r ih =>
    intro batch ids s g h
    by_cases hb : bs ≤ batch.length + 1
    · obtain ⟨s', he, hp, hd, hl, ha, hf⟩ :=
        ih [] (ids ++ idsFrom s.practices.length (batch ++ [(mkPractice fk g).1]).length)
          { s with practices := s.practices ++ (batch ++ [(mkPractice fk g).1]), flushCount := s.flushCount + 1 }
          (mkPractice fk g).2 h
      refine ⟨s', ?_, ?_, hd, hl, ha, hf⟩
      · rw [genPracticesAux_step_flush fk bs (r + 1) batch ids s g h (Or.inl (by simpa using hb))]
        rw [he]
        simp only [pPracticeRows, List.length_append, List.length_cons, List.length_nil,
          List.append_assoc, List.nil_append, Nat.zero_add]
        rw [idsFrom_concat]
        have harith : batch.length + 1 + (r + 1) = batch.length + (r + 1) + 1 := by omega
        rw [harith]
      · rw [hp]
        simp [pPracticeRows, List.append_assoc]
    · obtain ⟨s', he, hp, hd, hl, ha, hf⟩ :=
        ih (batch ++ [(mkPractice fk g).1]) ids s (mkPractice fk g).2 h
      refine ⟨s', ?_, ?_, hd, hl, ha, hf⟩
      · rw [genPracticesAux_step_skip fk bs (r + 1) batch ids s g (by simp; omega)]
        rw [he]
        simp only [pPracticeRows, List.length_append, List.length_cons, List.length_nil]
        have harith : batch.length + 1 + r + 1 = batch.length + (r + 1) + 1 := by omega
        rw [harith]
      · rw [hp]
        simp [pPracticeRows, List.append_assoc]

theorem generate_practices_ok (fk : Fake) (n bs : Nat) (s : Sink) (g : Rng) (h : noFail s) :
    ∃ s', generate_practices fk n bs s g
            = .ok (idsFrom s.practices.length n, s', (pPracticeRows fk n g).2) ∧
      s'.practices = s.practices ++ (pPracticeRows fk n g).1 ∧
      s'.doctors = s.doctors ∧ s'.licenses = s.licenses ∧
      s'.doctorPractices = s.doctorPractices ∧ s'.failAt = s.failAt := by
  cases n with
  | zero =>
    refine ⟨s, ?_, by simp [pPracticeRows], rfl, rfl, rfl, rfl⟩
    simp [generate_practices, genPracticesAux, idsFrom, pPracticeRows]
  | succ r =>
    obtain ⟨s', he, hp, hd, hl, ha, hf⟩ := genPracticesAux_ok fk bs r [] [] s g h
    exact ⟨s', by simpa using he, by simpa using hp, hd, hl, ha, hf⟩
/-! The same bridge for the doctor loop. -/

theorem genDoctorsAux_step_flush (fk : Fake) (bs r : Nat) (batch : List DoctorRow)
    (ids : List Nat) (s : Sink) (g : Rng) (h : noFail s)
    (hb : bs ≤ (batch ++ [(mkDoctor fk g).1]).length ∨ r = 0) :
    genDoctorsAux fk bs (r + 1) batch ids s g
      = genDoctorsAux fk bs r []
          (ids ++ idsFrom s.doctors.length (batch ++ [(mkDoctor fk g).1]).length)
          { s with doctors := s.doctors ++ (batch ++ [(mkDoctor fk g).1]), flushCount := s.flushCount + 1 }
          (mkDoctor fk g).2 := by
  conv_lhs => simp only [genDoctorsAux]
  rw [if_pos hb, flushDoctors_noFail _ _ h]

theorem genDoctorsAux_step_skip (fk : Fake) (bs r : Nat) (batch : List DoctorRow)
    (ids : List Nat) (s : Sink) (g : Rng)
    (hb : ¬ (bs ≤ (batch ++ [(mkDoctor fk g).1]).length ∨ r = 0)) :
    genDoctorsAux fk bs (r + 1) batch ids s g
      = genDoctorsAux fk bs r (batch ++ [(mkDoctor fk g).1]) ids s (mkDoctor fk g).2 := by
  conv_lhs => simp only [genDoctorsAux]
  rw [if_neg hb]

theorem genDoctorsAux_ok (fk : Fake) (bs : Nat) :
    ∀ (r : Nat) (batch : List DoctorRow) (ids : List Nat) (s : Sink) (g : Rng),
      noFail s →
      ∃ s', genDoctorsAux fk bs (r + 1) batch ids s g
              = .ok (ids ++ idsFrom s.doctors.length (batch.length + r + 1), s',
                     (pDoctorRows fk (r + 1) g).2) ∧
        s'.doctors = s.doctors ++ batch ++ (pDoctorRows fk (r + 1) g).1 ∧
        s'.practices = s.practices ∧ s'.licenses = s.licenses ∧
        s'.doctorPractices = s.doctorPractices ∧ s'.failAt = s.failAt := by
  intro r
  induction r with
  | zero =>
    intro batch ids s g h
    refine ⟨{ s with doctors := s.doctors ++ (batch ++ [(mkDoctor fk g).1]), flushCount := s.flushCount + 1 }, ?_, ?_, rfl, rfl, rfl, rfl⟩
    · rw [genDoctorsAux_step_flush fk bs 0 batch ids s g h (Or.inr rfl)]
      simp [genDoctorsAux, pDoctorRows]
    · simp [pDoctorRows]
  | succ r ih =>
    intro batch ids s g h
    by_cases hb : bs ≤ batch.length + 1
    · obtain ⟨s', he, hp, hd, hl, ha, hf⟩ :=
        ih [] (ids ++ idsFrom s.doctors.length (batch ++ [(mkDoctor fk g).1]).length)
          { s with doctors := s.doctors ++ (batch ++ [(mkDoctor fk g).1]), flushCount := s.flushCount + 1 }
          (mkDoctor fk g).2 h
      refine ⟨s', ?_, ?_, hd, hl, ha, hf⟩
      · rw [genDoctorsAux_step_flush fk bs (r + 1) batch ids s g h (Or.inl (by simpa using hb))]
        rw [he]
        simp only [pDoctorRows, List.length_append, List.length_cons, List.length_nil,
          List.append_assoc, List.nil_append, Nat.zero_add]
        rw [idsFrom_concat]
        have harith : batch.length + 1 + (r + 1) = batch.length + (r + 1) + 1 := by omega
        rw [harith]
      · rw [hp]
        simp [pDoctorRows, List.append_assoc]
    · obtain ⟨s', he, hp, hd, hl, ha, hf⟩ :=
        ih (batch ++ [(mkDoctor fk g).1]) ids s (mkDoctor fk g).2 h
      refine ⟨s', ?_, ?_, hd, hl, ha, hf⟩
      · rw [genDoctorsAux_step_skip fk bs (r + 1) batch ids s g (by simp; omega)]
        rw [he]
        simp only [pDoctorRows, List.length_append, List.length_cons, List.length_nil]
        have harith : batch.length + 1 + r + 1 = batch.length + (r + 1) + 1 := by omega
        rw [harith]
      · rw [hp]
        simp [pDoctorRows, List.append_assoc]

theorem generate_doctors_ok (fk : Fake) (n bs : Nat) (s : Sink) (g : Rng) (h : noFail s) :
    ∃ s', generate_doctors fk n bs s g
            = .ok (idsFrom s.doctors.length n, s', (pDoctorRows fk n g).2) ∧
      s'.doctors = s.doctors ++ (pDoctorRows fk n g).1 ∧
      s'.practices = s.practices ∧ s'.licenses = s.licenses ∧
      s'.doctorPractices = s.doctorPractices ∧ s'.failAt = s.failAt := by
  cases n with
  | zero =>
    refine ⟨s, ?_, by simp [pDoctorRows], rfl, rfl, rfl, rfl⟩
    simp [generate_doctors, genDoctorsAux, idsFrom, pDoctorRows]
  | succ r =>
    obtain ⟨s', he, hp, hd, hl, ha, hf⟩ := genDoctorsAux_ok fk bs r [] [] s g h
    exact ⟨s', by simpa using he, by simpa using hp, hd, hl, ha, hf⟩

/-! Bridge for the license stage. -/

theorem noFail_congr {s s' : Sink} (hf : s'.failAt = s.failAt) (h : noFail s) : noFail s' := by
  intro n
  rw [hf]
  exact h n

theorem licInner_step_flush (fk : Fake) (bs d k : Nat) (batch : List LicenseRow)
    (s : Sink) (g : Rng) (h : noFail s)
    (hb : bs ≤ (batch ++ [(mkLicense fk d g).1]).length) :
    licInner fk bs d (k + 1) batch s g
      = licInner fk bs d k []
          { s with licenses := s.licenses ++ (batch ++ [(mkLicense fk d g).1]), flushCount := s.flushCount + 1 }
          (mkLicense fk d g).2 := by
  conv_lhs => simp only [licInner]
  rw [if_pos hb, flushLicenses_noFail _ _ h]

theorem licInner_step_skip (fk : Fake) (bs d k : Nat) (batch : List LicenseRow)
    (s : Sink) (g : Rng) (hb : ¬ bs ≤ (batch ++ [(mkLicense fk d g).1]).length) :
    licInner fk bs d (k + 1) batch s g
      = licInner fk bs d k (batch ++ [(mkLicense fk d g).1]) s (mkLicense fk d g).2 := by
  conv_lhs => simp only [licInner]
  rw [if_neg hb]

theorem licInner_ok (fk : Fake) (bs d : Nat) :
    ∀ (k : Nat) (batch : List LicenseRow) (s : Sink) (g : Rng), noFail s →
      ∃ b' s', licInner fk bs d k batch s g = .ok (b', s', (licRowsAux fk d k g).2) ∧
        s'.licenses ++ b' = s.licenses ++ batch ++ (licRowsAux fk d k g).1 ∧
        s'.practices = s.practices ∧ s'.doctors = s.doctors ∧
        s'.doctorPractices = s.doctorPractices ∧ s'.failAt = s.failAt := by
  intro k
  induction k with
  | zero =>
    intro batch s g h
    exact ⟨batch, s, by simp [licInner, licRowsAux], by simp [licRowsAux], rfl, rfl, rfl, rfl⟩
  | succ k ih =>
    intro batch s g h
    by_cases hb : bs ≤ batch.length + 1
    · obtain ⟨b', s', he, hlic, hp, hd, ha, hf⟩ :=
        ih [] { s with licenses := s.licenses ++ (batch ++ [(mkLicense fk d g).1]), flushCount := s.flushCount + 1 }
          (mkLicense fk d g).2 h
      refine ⟨b', s', ?_, ?_, hp, hd, ha, hf⟩
      · rw [licInner_step_flush fk bs d k batch s g h (by simpa using hb), he]
        simp [licRowsAux]
      · rw [hlic]
        simp [licRowsAux, List.append_assoc]
    · obtain ⟨b', s', he, hlic, hp, hd, ha, hf⟩ :=
        ih (batch ++ [(mkLicense fk d g).1]) s (mkLicense fk d g).2 h
      refine ⟨b', s', ?_, ?_, hp, hd, ha, hf⟩
      · rw [licInner_step_skip fk bs d k batch s g (by simpa using hb), he]
        simp [licRowsAux]
      · rw [hlic]
        simp [licRowsAux, List.append_assoc]

theorem licOuter_ok (fk : Fake) (maxL bs : Nat) :
    ∀ (ds : List Nat) (batch : List LicenseRow) (s : Sink) (g : Rng), noFail s →
      ∃ b' s', licOuter fk maxL bs ds batch s g = .ok (b', s', (pLicenses fk maxL ds g).2) ∧
        s'.licenses ++ b' = s.licenses ++ batch ++ (pLicenses fk maxL ds g).1 ∧
        s'.practices = s.practices ∧ s'.doctors = s.doctors ∧
        s'.doctorPractices = s.doctorPractices ∧ s'.failAt = s.failAt := by
  intro ds
  induction ds with
  | nil =>
    intro batch s g h
    exact ⟨batch, s, by simp [licOuter, pLicenses], by simp [pLicenses], rfl, rfl, rfl, rfl⟩
  | cons d ds ih =>
    intro batch s g h
    obtain ⟨b1, s1, he1, hlic1, hp1, hd1, ha1, hf1⟩ :=
      licInner_ok fk bs d (randint 1 maxL g).1 batch s (randint 1 maxL g).2 h
    obtain ⟨b2, s2, he2, hlic2, hp2, hd2, ha2, hf2⟩ :=
      ih b1 s1 (licRowsAux fk d (randint 1 maxL g).1 (randint 1 maxL g).2).2
        (noFail_congr hf1 h)
    refine ⟨b2, s2, ?_, ?_, hp2.trans hp1, hd2.trans hd1, ha2.trans ha1, hf2.trans hf1⟩
    · conv_lhs => simp only [licOuter]
      rw [he1]
      simp only []
      rw [he2]
      simp [pLicenses]
    · rw [hlic2, hlic1]
      simp [pLicenses, List.append_assoc]

theorem generate_licenses_ok (fk : Fake) (maxL bs : Nat) (ds : List Nat) (s : Sink)
    (g : Rng) (h : noFail s) :
    ∃ s', generate_licenses fk maxL bs ds s g = .ok (s', (pLicenses fk maxL ds g).2) ∧
      s'.licenses = s.licenses ++ (pLicenses fk maxL ds g).1 ∧
      s'.practices = s.practices ∧ s'.doctors = s.doctors ∧
      s'.doctorPractices = s.doctorPractices ∧ s'.failAt = s.failAt := by
  obtain ⟨b', s', he, hlic, hp, hd, ha, hf⟩ := licOuter_ok fk maxL bs ds [] s g h
  by_cases hbe : b' = []
  · refine ⟨s', ?_, ?_, hp, hd, ha, hf⟩
    · unfold generate_licenses
      rw [he, hbe]
      simp
    · subst hbe
      simpa using hlic
  · have hfl := flushLicenses_noFail b' s' (noFail_congr hf h)
    refine ⟨{ s' with licenses := s'.licenses ++ b', flushCount := s'.flushCount + 1 }, ?_, ?_, hp, hd, ha, hf⟩
    · unfold generate_licenses
      rw [he]
      simp only [List.isEmpty_iff, hbe, if_neg, ite_false]
      rw [hfl]
    · simpa using hlic

/-! Bridge for the affiliation stage. -/

theorem affInner_step_flush (fk : Fake) (bs d i : Nat) (pid : Nat) (rest : List Nat)
    (batch : List AffilRow) (s : Sink) (g : Rng) (h : noFail s)
    (hb : bs ≤ (batch ++ [(mkAffil fk d pid (i == 0) g).1]).length) :
    affInner fk bs d (pid :: rest) i batch s g
      = affInner fk bs d rest (i + 1) []
          { s with doctorPractices := s.doctorPractices ++ (batch ++ [(mkAffil fk d pid (i == 0) g).1]), flushCount := s.flushCount + 1 }
          (mkAffil fk d pid (i == 0) g).2 := by
  conv_lhs => simp only [affInner]
  rw [if_pos hb, flushAffiliations_noFail _ _ h]

theorem affInner_step_skip (fk : Fake) (bs d i : Nat) (pid : Nat) (rest : List Nat)
    (batch : List AffilRow) (s : Sink) (g : Rng)
    (hb : ¬ bs ≤ (batch ++ [(mkAffil fk d pid (i == 0) g).1]).length) :
    affInner fk bs d (pid :: rest) i batch s g
      = affInner fk bs d rest (i + 1) (batch ++ [(mkAffil fk d pid (i == 0) g).1]) s
          (mkAffil fk d pid (i == 0) g).2 := by
  conv_lhs => simp only [affInner]
  rw [if_neg hb]

theorem affInner_ok (fk : Fake) (bs d : Nat) :
    ∀ (l : List Nat) (i : Nat) (batch : List AffilRow) (s : Sink) (g : Rng), noFail s →
      ∃ b' s', affInner fk bs d l i batch s g = .ok (b', s', (affRowsAux fk d l i g).2) ∧
        s'.doctorPractices ++ b' = s.doctorPractices ++ batch ++ (affRowsAux fk d l i g).1 ∧
        s'.practices = s.practices ∧ s'.doctors = s.doctors ∧
        s'.licenses = s.licenses ∧ s'.failAt = s.failAt := by
  intro l
  induction l with
  | nil =>
    intro i batch s g h
    exact ⟨batch, s, by simp [affInner, affRowsAux], by simp [affRowsAux], rfl, rfl, rfl, rfl⟩
  | cons pid rest ih =>
    intro i batch s g h
    by_cases hb : bs ≤ batch.length + 1
    · obtain ⟨b', s', he, haf, hp, hd, hl, hf⟩ :=
        ih (i + 1) [] { s with doctorPractices := s.doctorPractices ++ (batch ++ [(mkAffil fk d pid (i == 0) g).1]), flushCount := s.flushCount + 1 }
          (mkAffil fk d pid (i == 0) g).2 h
      refine ⟨b', s', ?_, ?_, hp, hd, hl, hf⟩
      · rw [affInner_step_flush fk bs d i pid rest batch s g h (by simpa using hb), he]
        simp [affRowsAux]
      · rw [haf]
        simp [affRowsAux, List.append_assoc]
    · obtain ⟨b', s', he, haf, hp, hd, hl, hf⟩ :=
        ih (i + 1) (batch ++ [(mkAffil fk d pid (i == 0) g).1]) s (mkAffil fk d pid (i == 0) g).2 h
      refine ⟨b', s', ?_, ?_, hp, hd, hl, hf⟩
      · rw [affInner_step_skip fk bs d i pid rest batch s g (by simpa using hb), he]
        simp [affRowsAux]
      · rw [haf]
        simp [affRowsAux, List.append_assoc]

theorem affOuter_ok (fk : Fake) (maxP bs : Nat) (pids : List Nat) :
    ∀ (ds : List Nat) (batch : List AffilRow) (s : Sink) (g : Rng), noFail s →
      ∃ b' s', affOuter fk maxP bs pids ds batch s g
          = .ok (b', s', (pAffils fk maxP pids ds g).2) ∧
        s'.doctorPractices ++ b' = s.doctorPractices ++ batch ++ (pAffils fk maxP pids ds g).1 ∧
        s'.practices = s.practices ∧ s'.doctors = s.doctors ∧
        s'.licenses = s.licenses ∧ s'.failAt = s.failAt := by
  intro ds
  induction ds with
  | nil =>
    intro batch s g h
    exact ⟨batch, s, by simp [affOuter, pAffils], by simp [pAffils], rfl, rfl, rfl, rfl⟩
  | cons d ds ih =>
    intro batch s g h
    obtain ⟨b1, s1, he1, haf1, hp1, hd1, hl1, hf1⟩ :=
      affInner_ok fk bs d (sample pids (min (randint 1 maxP g).1 pids.length) (randint 1 maxP g).2).1 0 batch s
        (sample pids (min (randint 1 maxP g).1 pids.length) (randint 1 maxP g).2).2 h
    obtain ⟨b2, s2, he2, haf2, hp2, hd2, hl2, hf2⟩ :=
      ih b1 s1
        (affRowsAux fk d (sample pids (min (randint 1 maxP g).1 pids.length) (randint 1 maxP g).2).1 0
          (sample pids (min (randint 1 maxP g).1 pids.length) (randint 1 maxP g).2).2).2
        (noFail_congr hf1 h)
    refine ⟨b2, s2, ?_, ?_, hp2.trans hp1, hd2.trans hd1, hl2.trans hl1, hf2.trans hf1⟩
    · conv_lhs => simp only [affOuter]
      rw [he1]
      simp only []
      rw [he2]
      simp [pAffils]
    · rw [haf2, haf1]
      simp [pAffils, List.append_assoc]

theorem generate_doctor_practices_ok (fk : Fake) (maxP bs : Nat) (ds pids : List Nat)
    (s : Sink) (g : Rng) (h : noFail s) :
    ∃ s', generate_doctor_practices fk maxP bs ds pids s g
            = .ok (s', (pAffils fk maxP pids ds g).2) ∧
      s'.doctorPractices = s.doctorPractices ++ (pAffils fk maxP pids ds g).1 ∧
      s'.practices = s.practices ∧ s'.doctors = s.doctors ∧
      s'.licenses = s.licenses ∧ s'.failAt = s.failAt := by
  obtain ⟨b', s', he, haf, hp, hd, hl, hf⟩ := affOuter_ok fk maxP bs pids ds [] s g h
  by_cases hbe : b' = []
  · refine ⟨s', ?_, ?_, hp, hd, hl, hf⟩
    · unfold generate_doctor_practices
      rw [he, hbe]
      simp
    · subst hbe
      simpa using haf
  · have hfl := flushAffiliations_noFail b' s' (noFail_congr hf h)
    refine ⟨{ s' with doctorPractices := s'.doctorPractices ++ b', flushCount := s'.flushCount + 1 }, ?_, ?_, hp, hd, hl, hf⟩
    · unfold generate_doctor_practices
      rw [he]
      simp only [List.isEmpty_iff, hbe, if_neg, ite_false]
      rw [hfl]
    · simpa using haf

/-! Frame lemmas that hold on every outcome, failures included: each stage
only ever touches its own table (and the earlier stages' results it was
given), so a failed license flush leaves the affiliation table exactly as
it was. -/

theorem genPracticesAux_frame (fk : Fake) (bs : Nat) :
    ∀ (r : Nat) (batch : List PracticeRow) (ids : List Nat) (s : Sink) (g : Rng)
      (pids : List Nat) (s' : Sink) (g' : Rng),
      genPracticesAux fk bs r batch ids s g = .ok (pids, s', g') →
      s'.doctors = s.doctors ∧ s'.licenses = s.licenses ∧
      s'.doctorPractices = s.doctorPractices ∧ s'.failAt = s.failAt := by
  intro r
  induction r with
  | zero =>
    intro batch ids s g pids s' g' hrun
    simp only [genPracticesAux, Except.ok.injEq, Prod.mk.injEq] at hrun
    obtain ⟨-, h2, -⟩ := hrun
    rw [← h2]
    exact ⟨rfl, rfl, rfl, rfl⟩
  | succ r ih =>
    intro batch ids s g pids s' g' hrun
    simp only [genPracticesAux] at hrun
    split at hrun
    · split at hrun
      · exact absurd hrun (by simp)
      · rename_i rs heq
        have hfields := ih _ _ _ _ _ _ _ hrun
        unfold flushPractices at heq
        split at heq
        · exact absurd heq (by simp)
        · injection heq with heq2
          rw [← heq2] at hfields
          exact hfields
    · exact ih _ _ _ _ _ _ _ hrun

theorem genDoctorsAux_frame (fk : Fake) (bs : Nat) :
    ∀ (r : Nat) (batch : List DoctorRow) (ids : List Nat) (s : Sink) (g : Rng)
      (dids : List Nat) (s' : Sink) (g' : Rng),
      genDoctorsAux fk bs r batch ids s g = .ok (dids, s', g') →
      s'.practices = s.practices ∧ s'.licenses = s.licenses ∧
      s'.doctorPractices = s.doctorPractices ∧ s'.failAt = s.failAt := by
  intro r
  induction r with
  | zero =>
    intro batch ids s g dids s' g' hrun
    simp only [genDoctorsAux, Except.ok.injEq, Prod.mk.injEq] at hrun
    obtain ⟨-, h2, -⟩ := hrun
    rw [← h2]
    exact ⟨rfl, rfl, rfl, rfl⟩
  | succ r ih =>
    intro batch ids s g dids s' g' hrun
    simp only [genDoctorsAux] at hrun
    split at hrun
    · split at hrun
      · exact absurd hrun (by simp)
      · rename_i rs heq
        have hfields := ih _ _ _ _ _ _ _ hrun
        unfold flushDoctors at heq
        split at heq
        · exact absurd heq (by simp)
        · injection heq with heq2
          rw [← heq2] at hfields
          exact hfields
    · exact ih _ _ _ _ _ _ _ hrun

theorem licStep_refl (s : Sink) : licStep s s := ⟨rfl, rfl, rfl, [], by simp⟩

theorem licStep_trans {s s1 s2 : Sink} (h1 : licStep s s1) (h2 : licStep s1 s2) :
    licStep s s2 := by
  obtain ⟨hp1, hd1, ha1, t1, e1⟩ := h1
  obtain ⟨hp2, hd2, ha2, t2, e2⟩ := h2
  exact ⟨hp2.trans hp1, hd2.trans hd1, ha2.trans ha1, t1 ++ t2,
    by rw [e2, e1, List.append_assoc]⟩

theorem flushLicenses_licStep (batch : List LicenseRow) (s : Sink) :
    ∀ res, flushLicenses batch s = res →
      (∀ s1, res = .ok s1 → licStep s s1) ∧ (∀ s1, res = .error s1 → licStep s s1) := by
  intro res hres
  unfold flushLicenses at hres
  split at hres
  · rw [← hres]
    refine ⟨fun s1 h1 => absurd h1 (by simp), fun s1 h1 => ?_⟩
    injection h1 with h2
    rw [← h2]
    exact licStep_refl s
  · rw [← hres]
    refine ⟨fun s1 h1 => ?_, fun s1 h1 => absurd h1 (by simp)⟩
    injection h1 with h2
    rw [← h2]
    exact ⟨rfl, rfl, rfl, batch, rfl⟩

theorem licInner_licStep (fk : Fake) (bs d : Nat) :
    ∀ (k : Nat) (batch : List LicenseRow) (s : Sink) (g : Rng) res,
      licInner fk bs d k batch s g = res →
      (∀ b' s' g', res = .ok (b', s', g') → licStep s s') ∧
      (∀ s', res = .error s' → licStep s s') := by
  intro k
  induction k with
  | zero =>
    intro batch s g res hres
    simp only [licInner] at hres
    rw [← hres]
    refine ⟨fun b' s' g' h1 => ?_, fun s' h1 => absurd h1 (by simp)⟩
    simp only [Except.ok.injEq, Prod.mk.injEq] at h1
    obtain ⟨-, h2, -⟩ := h1
    rw [← h2]
    exact licStep_refl s
  | succ k ih =>
    intro batch s g res hres
    simp only [licInner] at hres
    split at hres
    · rename_i hcond
      rcases hfl : flushLicenses (batch ++ [(mkLicense fk d g).1]) s with s1 | s1
      · rw [hfl] at hres
        have hstep := (flushLicenses_licStep _ s _ hfl).2 s1 rfl
        rw [← hres]
        exact ⟨fun b' s' g' h1 => absurd h1 (by simp),
               fun s' h1 => by injection h1 with h2; rw [← h2]; exact hstep⟩
      · rw [hfl] at hres
        have hstep := (flushLicenses_licStep _ s _ hfl).1 s1 rfl
        have hrest := ih [] s1 (mkLicense fk d g).2 res hres
        exact ⟨fun b' s' g' h1 => licStep_trans hstep (hrest.1 b' s' g' h1),
               fun s' h1 => licStep_trans hstep (hrest.2 s' h1)⟩
    · exact ih _ _ _ _ hres

theorem licOuter_licStep (fk : Fake) (maxL bs : Nat) :
    ∀ (ds : List Nat) (batch : List LicenseRow) (s : Sink) (g : Rng) res,
      licOuter fk maxL bs ds batch s g = res →
      (∀ b' s' g', res = .ok (b', s', g') → licStep s s') ∧
      (∀ s', res = .error s' → licStep s s') := by
  intro ds
  induction ds with
  | nil =>
    intro batch s g res hres
    simp only [licOuter] at hres
    rw [← hres]
    refine ⟨fun b' s' g' h1 => ?_, fun s' h1 => absurd h1 (by simp)⟩
    simp only [Except.ok.injEq, Prod.mk.injEq] at h1
    obtain ⟨-, h2, -⟩ := h1
    rw [← h2]
    exact licStep_refl s
  | cons d ds ih =>
    intro batch s g res hres
    simp only [licOuter] at hres
    rcases hin : licInner fk bs d (randint 1 maxL g).1 batch s (randint 1 maxL g).2 with s1 | r1
    · rw [hin] at hres
      have hstep := (licInner_licStep fk bs d _ _ _ _ _ hin).2 s1 rfl
      rw [← hres]
      exact ⟨fun b' s' g' h1 => absurd h1 (by simp),
             fun s' h1 => by injection h1 with h2; rw [← h2]; exact hstep⟩
    · rw [hin] at hres
      have hstep := (licInner_licStep fk bs d _ _ _ _ _ hin).1 r1.1 r1.2.1 r1.2.2 rfl
      have hrest := ih r1.1 r1.2.1 r1.2.2 res hres
      exact ⟨fun b' s' g' h1 => licStep_trans hstep (hrest.1 b' s' g' h1),
             fun s' h1 => licStep_trans hstep (hrest.2 s' h1)⟩

theorem generate_licenses_err (fk : Fake) (maxL bs : Nat) (ds : List Nat) (s : Sink)
    (g : Rng) (s' : Sink) (herr : generate_licenses fk maxL bs ds s g = .error s') :
    licStep s s' := by
  unfold generate_licenses at herr
  rcases hout : licOuter fk maxL bs ds [] s g with s1 | r1
  · rw [hout] at herr
    simp only [] at herr
    injection herr with h2
    rw [← h2]
    exact (licOuter_licStep fk maxL bs ds [] s g _ hout).2 s1 rfl
  · rw [hout] at herr
    simp only [] at herr
    have hstep := (licOuter_licStep fk maxL bs ds [] s g _ hout).1 r1.1 r1.2.1 r1.2.2 rfl
    split at herr
    · exact absurd herr (by simp)
    · rcases hfl : flushLicenses r1.1 r1.2.1 with s1 | s1
      · rw [hfl] at herr
        simp only [] at herr
        injection herr with h2
        rw [← h2]
        exact licStep_trans hstep ((flushLicenses_licStep _ _ _ hfl).2 s1 rfl)
      · rw [hfl] at herr
        simp only [] at herr
        exact absurd herr (by simp)

theorem generate_licenses_frame_ok (fk : Fake) (maxL bs : Nat) (ds : List Nat)
    (s : Sink) (g : Rng) (s' : Sink) (g' : Rng)
    (hok : generate_licenses fk maxL bs ds s g = .ok (s', g')) : licStep s s' := by
  unfold generate_licenses at hok
  rcases hout : licOuter fk maxL bs ds [] s g with s1 | r1
  · rw [hout] at hok
    simp only [] at hok
    exact absurd hok (by simp)
  · rw [hout] at hok
    simp only [] at hok
    have hstep := (licOuter_licStep fk maxL bs ds [] s g _ hout).1 r1.1 r1.2.1 r1.2.2 rfl
    split at hok
    · simp only [Except.ok.injEq, Prod.mk.injEq] at hok
      rw [← hok.1]
      exact hstep
    · rcases hfl : flushLicenses r1.1 r1.2.1 with s1 | s1
      · rw [hfl] at hok
        simp only [] at hok
        exact absurd hok (by simp)
      · rw [hfl] at hok
        simp only [Except.ok.injEq, Prod.mk.injEq] at hok
        rw [← hok.1]
        exact licStep_trans hstep ((flushLicenses_licStep _ _ _ hfl).1 s1 rfl)

/-! The analogous step lemmas for the practice, doctor and affiliation
stages. -/

theorem pracStep_refl (s : Sink) : pracStep s s := ⟨rfl, rfl, rfl, [], by simp⟩

theorem pracStep_trans {s s1 s2 : Sink} (h1 : pracStep s s1) (h2 : pracStep s1 s2) :
    pracStep s s2 := by
  obtain ⟨hd1, hl1, ha1, t1, e1⟩ := h1
  obtain ⟨hd2, hl2, ha2, t2, e2⟩ := h2
  exact ⟨hd2.trans hd1, hl2.trans hl1, ha2.trans ha1, t1 ++ t2,
    by rw [e2, e1, List.append_assoc]⟩

theorem flushPractices_pracStep (batch : List PracticeRow) (s : Sink) :
    ∀ res, flushPractices batch s = res →
      (∀ rs, res = .ok rs → pracStep s rs.2) ∧ (∀ s1, res = .error s1 → pracStep s s1) := by
  intro res hres
  unfold flushPractices at hres
  split at hres
  · rw [← hres]
    refine ⟨fun rs h1 => absurd h1 (by simp), fun s1 h1 => ?_⟩
    injection h1 with h2
    rw [← h2]
    exact pracStep_refl s
  · rw [← hres]
    refine ⟨fun rs h1 => ?_, fun s1 h1 => absurd h1 (by simp)⟩
    injection h1 with h2
    rw [← h2]
    exact ⟨rfl, rfl, rfl, batch, rfl⟩

theorem genPracticesAux_pracStep (fk : Fake) (bs : Nat) :
    ∀ (r : Nat) (batch : List PracticeRow) (ids : List Nat) (s : Sink) (g : Rng) res,
      genPracticesAux fk bs r batch ids s g = res →
      (∀ pids s' g', res = .ok (pids, s', g') → pracStep s s') ∧
      (∀ s', res = .error s' → pracStep s s') := by
  intro r
  induction r with
  | zero =>
    intro batch ids s g res hres
    simp only [genPracticesAux] at hres
    rw [← hres]
    refine ⟨fun pids s' g' h1 => ?_, fun s' h1 => absurd h1 (by simp)⟩
    simp only [Except.ok.injEq, Prod.mk.injEq] at h1
    rw [← h1.2.1]
    exact pracStep_refl s
  | succ r ih =>
    intro batch ids s g res hres
    simp only [genPracticesAux] at hres
    split at hres
    · rcases hfl : flushPractices (batch ++ [(mkPractice fk g).1]) s with s1 | rs
      · rw [hfl] at hres
        have hstep := (flushPractices_pracStep _ s _ hfl).2 s1 rfl
        rw [← hres]
        exact ⟨fun pids s' g' h1 => absurd h1 (by simp),
               fun s' h1 => by injection h1 with h2; rw [← h2]; exact hstep⟩
      · rw [hfl] at hres
        have hstep := (flushPractices_pracStep _ s _ hfl).1 rs rfl
        have hrest := ih _ _ _ _ _ hres
        exact ⟨fun pids s' g' h1 => pracStep_trans hstep (hrest.1 pids s' g' h1),
               fun s' h1 => pracStep_trans hstep (hrest.2 s' h1)⟩
    · exact ih _ _ _ _ _ hres

theorem docStep_refl (s : Sink) : docStep s s := ⟨rfl, rfl, rfl, [], by simp⟩

theorem docStep_trans {s s1 s2 : Sink} (h1 : docStep s s1) (h2 : docStep s1 s2) :
    docStep s s2 := by
  obtain ⟨hp1, hl1, ha1, t1, e1⟩ := h1
  obtain ⟨hp2, hl2, ha2, t2, e2⟩ := h2
  exact ⟨hp2.trans hp1, hl2.trans hl1, ha2.trans ha1, t1 ++ t2,
    by rw [e2, e1, List.append_assoc]⟩

theorem flushDoctors_docStep (batch : List DoctorRow) (s : Sink) :
    ∀ res, flushDoctors batch s = res →
      (∀ rs, res = .ok rs → docStep s rs.2) ∧ (∀ s1, res = .error s1 → docStep s s1) := by
  intro res hres
  unfold flushDoctors at hres
  split at hres
  · rw [← hres]
    refine ⟨fun rs h1 => absurd h1 (by simp), fun s1 h1 => ?_⟩
    injection h1 with h2
    rw [← h2]
    exact docStep_refl s
  · rw [← hres]
    refine ⟨fun rs h1 => ?_, fun s1 h1 => absurd h1 (by simp)⟩
    injection h1 with h2
    rw [← h2]
    exact ⟨rfl, rfl, rfl, batch, rfl⟩

theorem genDoctorsAux_docStep (fk : Fake) (bs : Nat) :
    ∀ (r : Nat) (batch : List DoctorRow) (ids : List Nat) (s : Sink) (g : Rng) res,
      genDoctorsAux fk bs r batch ids s g = res →
      (∀ dids s' g', res = .ok (dids, s', g') → docStep s s') ∧
      (∀ s', res = .error s' → docStep s s') := by
  intro r
  induction r with
  | zero =>
    intro batch ids s g res hres
    simp only [genDoctorsAux] at hres
    rw [← hres]
    refine ⟨fun dids s' g' h1 => ?_, fun s' h1 => absurd h1 (by simp)⟩
    simp only [Except.ok.injEq, Prod.mk.injEq] at h1
    rw [← h1.2.1]
    exact docStep_refl s
  | succ r ih =>
    intro batch ids s g res hres
    simp only [genDoctorsAux] at hres
    split at hres
    · rcases hfl : flushDoctors (batch ++ [(mkDoctor fk g).1]) s with s1 | rs
      · rw [hfl] at hres
        have hstep := (flushDoctors_docStep _ s _ hfl).2 s1 rfl
        rw [← hres]
        exact ⟨fun dids s' g' h1 => absurd h1 (by simp),
               fun s' h1 => by injection h1 with h2; rw [← h2]; exact hstep⟩
      · rw [hfl] at hres
        have hstep := (flushDoctors_docStep _ s _ hfl).1 rs rfl
        have hrest := ih _ _ _ _ _ hres
        exact ⟨fun dids s' g' h1 => docStep_trans hstep (hrest.1 dids s' g' h1),
               fun s' h1 => docStep_trans hstep (hrest.2 s' h1)⟩
    · exact ih _ _ _ _ _ hres

theorem affStep_refl (s : Sink) : affStep s s := ⟨rfl, rfl, rfl, [], by simp⟩

theorem affStep_trans {s s1 s2 : Sink} (h1 : affStep s s1) (h2 : affStep s1 s2) :
    affStep s s2 := by
  obtain ⟨hp1, hd1, hl1, t1, e1⟩ := h1
  obtain ⟨hp2, hd2, hl2, t2, e2⟩ := h2
  exact ⟨hp2.trans hp1, hd2.trans hd1, hl2.trans hl1, t1 ++ t2,
    by rw [e2, e1, List.append_assoc]⟩

theorem flushAffiliations_affStep (batch : List AffilRow) (s : Sink) :
    ∀ res, flushAffiliations batch s = res →
      (∀ s1, res = .ok s1 → affStep s s1) ∧ (∀ s1, res = .error s1 → affStep s s1) := by
  intro res hres
  unfold flushAffiliations at hres
  split at hres
  · rw [← hres]
    refine ⟨fun s1 h1 => absurd h1 (by simp), fun s1 h1 => ?_⟩
    injection h1 with h2
    rw [← h2]
    exact affStep_refl s
  · rw [← hres]
    refine ⟨fun s1 h1 => ?_, fun s1 h1 => absurd h1 (by simp)⟩
    injection h1 with h2
    rw [← h2]
    exact ⟨rfl, rfl, rfl, batch, rfl⟩

theorem affInner_affStep (fk : Fake) (bs d : Nat) :
    ∀ (l : List Nat) (i : Nat) (batch : List AffilRow) (s : Sink) (g : Rng) res,
      affInner fk bs d l i batch s g = res →
      (∀ b' s' g', res = .ok (b', s', g') → affStep s s') ∧
      (∀ s', res = .error s' → affStep s s') := by
  intro l
  induction l with
  | nil =>
    intro i batch s g res hres
    simp only [affInner] at hres
    rw [← hres]
    refine ⟨fun b' s' g' h1 => ?_, fun s' h1 => absurd h1 (by simp)⟩
    simp only [Except.ok.injEq, Prod.mk.injEq] at h1
    rw [← h1.2.1]
    exact affStep_refl s
  | cons pid rest ih =>
    intro i batch s g res hres
    simp only [affInner] at hres
    split at hres
    · rcases hfl : flushAffiliations (batch ++ [(mkAffil fk d pid (i == 0) g).1]) s with s1 | s1
      · rw [hfl] at hres
        have hstep := (flushAffiliations_affStep _ s _ hfl).2 s1 rfl
        rw [← hres]
        exact ⟨fun b' s' g' h1 => absurd h1 (by simp),
               fun s' h1 => by injection h1 with h2; rw [← h2]; exact hstep⟩
      · rw [hfl] at hres
        have hstep := (flushAffiliations_affStep _ s _ hfl).1 s1 rfl
        have hrest := ih _ _ _ _ _ hres
        exact ⟨fun b' s' g' h1 => affStep_trans hstep (hrest.1 b' s' g' h1),
               fun s' h1 => affStep_trans hstep (hrest.2 s' h1)⟩
    · exact ih _ _ _ _ _ hres

theorem affOuter_affStep (fk : Fake) (maxP bs : Nat) (pids : List Nat) :
    ∀ (ds : List Nat) (batch : List AffilRow) (s : Sink) (g : Rng) res,
      affOuter fk maxP bs pids ds batch s g = res →
      (∀ b' s' g', res = .ok (b', s', g') → affStep s s') ∧
      (∀ s', res = .error s' → affStep s s') := by
  intro ds
  induction ds with
  | nil =>
    intro batch s g res hres
    simp only [affOuter] at hres
    rw [← hres]
    refine ⟨fun b' s' g' h1 => ?_, fun s' h1 => absurd h1 (by simp)⟩
    simp only [Except.ok.injEq, Prod.mk.injEq] at h1
    rw [← h1.2.1]
    exact affStep_refl s
  | cons d ds ih =>
    intro batch s g res hres
    simp only [affOuter] at hres
    rcases hin : affInner fk bs d
        (sample pids (min (randint 1 maxP g).1 pids.length) (randint 1 maxP g).2).1 0 batch s
        (sample pids (min (randint 1 maxP g).1 pids.length) (randint 1 maxP g).2).2 with s1 | r1
    · rw [hin] at hres
      have hstep := (affInner_affStep fk bs d _ _ _ _ _ _ hin).2 s1 rfl
      rw [← hres]
      exact ⟨fun b' s' g' h1 => absurd h1 (by simp),
             fun s' h1 => by injection h1 with h2; rw [← h2]; exact hstep⟩
    · rw [hin] at hres
      have hstep := (affInner_affStep fk bs d _ _ _ _ _ _ hin).1 r1.1 r1.2.1 r1.2.2 rfl
      have hrest := ih r1.1 r1.2.1 r1.2.2 res hres
      exact ⟨fun b' s' g' h1 => affStep_trans hstep (hrest.1 b' s' g' h1),
             fun s' h1 => affStep_trans hstep (hrest.2 s' h1)⟩

theorem generate_doctor_practices_err (fk : Fake) (maxP bs : Nat) (ds pids : List Nat)
    (s : Sink) (g : Rng) (s' : Sink)
    (herr : generate_doctor_practices fk maxP bs ds pids s g = .error s') :
    affStep s s' := by
  unfold generate_doctor_practices at herr
  rcases hout : affOuter fk maxP bs pids ds [] s g with s1 | r1
  · rw [hout] at herr
    simp only [] at herr
    injection herr with h2
    rw [← h2]
    exact (affOuter_affStep fk maxP bs pids ds [] s g _ hout).2 s1 rfl
  · rw [hout] at herr
    simp only [] at herr
    have hstep := (affOuter_affStep fk maxP bs pids ds [] s g _ hout).1 r1.1 r1.2.1 r1.2.2 rfl
    split at herr
    · exact absurd herr (by simp)
    · rcases hfl : flushAffiliations r1.1 r1.2.1 with s1 | s1
      · rw [hfl] at herr
        simp only [] at herr
        injection herr with h2
        rw [← h2]
        exact affStep_trans hstep ((flushAffiliations_affStep _ _ _ hfl).2 s1 rfl)
      · rw [hfl] at herr
        simp only [] at herr
        exact absurd herr (by simp)

/-! Row-level properties of the four row constructors. -/

theorem mkPractice_truncated (fk : Fake) (g : Rng) :
    (mkPractice fk g).1.zipCode.length ≤ 10 ∧ (mkPractice fk g).1.phone.length ≤ 20 ∧
    (mkPractice fk g).1.email.length ≤ 255 ∧
    (∀ w, (mkPractice fk g).1.website = some w → w.length ≤ 255) := by
  simp only [mkPractice]
  refine ⟨trunc_length_le _ _, trunc_length_le _ _, trunc_length_le _ _, ?_⟩
  intro w hw
  split at hw <;> split at hw <;>
    first
      | (injection hw with h2
         rw [← h2]
         exact trunc_length_le _ _)
      | exact absurd hw (by simp)

theorem mkDoctor_phone (fk : Fake) (g : Rng) : (mkDoctor fk g).1.phone.length ≤ 20 := by
  simp only [mkDoctor]
  exact trunc_length_le _ _

theorem mkLicense_dates (fk : Fake) (d : Nat) (g : Rng) :
    -5475 ≤ (mkLicense fk d g).1.issueDate ∧ (mkLicense fk d g).1.issueDate ≤ 0 ∧
    (mkLicense fk d g).1.issueDate + 365 ≤ (mkLicense fk d g).1.expiryDate ∧
    (mkLicense fk d g).1.expiryDate ≤ (mkLicense fk d g).1.issueDate + 3650 := by
  simp only [mkLicense]
  have hIss := dateBetween_bounds (-5475) 0 (choice STATES g).2 (by norm_num)
  have hDel := randint_bounds 365 3650 (dateBetween (-5475) 0 (choice STATES g).2).2 (by norm_num)
  refine ⟨hIss.1, hIss.2, ?_, ?_⟩ <;> omega

theorem mkLicense_doctorId (fk : Fake) (d : Nat) (g : Rng) :
    (mkLicense fk d g).1.doctorId = d := by
  simp only [mkLicense]

theorem mkLicense_number (fk : Fake) (d : Nat) (g : Rng) :
    ∃ dg lt, (mkLicense fk d g).1.licenseNumber
        = (mkLicense fk d g).1.state ++ ("-") ++ dg ++ ("-") ++ lt ∧
      dg.length = 6 ∧ (∀ c ∈ dg.data, c.isDigit = true) ∧
      lt.length = 3 ∧ (∀ c ∈ lt.data, c.isAlpha = true) := by
  simp only [mkLicense]
  refine ⟨(numerify 6 (randint 365 3650 (dateBetween (-5475) 0 (choice STATES g).2).2).2).1,
          (lexify 3 (numerify 6 (randint 365 3650 (dateBetween (-5475) 0 (choice STATES g).2).2).2).2).1,
          rfl, ?_, ?_, ?_, ?_⟩
  · exact numerifyChars_length _ _
  · exact numerifyChars_digits _ _
  · exact lexifyChars_length _ _
  · exact lexifyChars_alpha _ _

theorem mkAffil_ids (fk : Fake) (d pid : Nat) (b : Bool) (g : Rng) :
    (mkAffil fk d pid b g).1.doctorId = d ∧ (mkAffil fk d pid b g).1.practiceId = pid ∧
    (mkAffil fk d pid b g).1.isPrimary = b := by
  simp [mkAffil]

theorem mkAffil_dates (fk : Fake) (d pid : Nat) (b : Bool) (g : Rng) :
    -3650 ≤ (mkAffil fk d pid b g).1.startDate ∧ (mkAffil fk d pid b g).1.startDate ≤ -30 ∧
    (∀ e, (mkAffil fk d pid b g).1.endDate = some e →
      (mkAffil fk d pid b g).1.startDate ≤ e ∧ e ≤ 730) := by
  simp only [mkAffil]
  have hSt := dateBetween_bounds (-3650) (-30) g (by norm_num)
  refine ⟨hSt.1, hSt.2, ?_⟩
  intro e he
  split at he
  · exact absurd he (by simp)
  · injection he with h2
    have hE := dateBetween_bounds (dateBetween (-3650) (-30) g).1 730
      (randPct (dateBetween (-3650) (-30) g).2).2 (by omega)
    omega

/-! Lifting row-level facts over the reference row streams. -/

theorem pPracticeRows_forall (fk : Fake) (P : PracticeRow → Prop)
    (hP : ∀ g, P (mkPractice fk g).1) :
    ∀ (n : Nat) (g : Rng), ∀ r ∈ (pPracticeRows fk n g).1, P r := by
  intro n
  induction n with
  | zero => intro g r hr; simp [pPracticeRows] at hr
  | succ n ih =>
    intro g r hr
    simp only [pPracticeRows, List.mem_cons] at hr
    rcases hr with hr | hr
    · rw [hr]; exact hP g
    · exact ih _ _ hr

theorem pDoctorRows_forall (fk : Fake) (P : DoctorRow → Prop)
    (hP : ∀ g, P (mkDoctor fk g).1) :
    ∀ (n : Nat) (g : Rng), ∀ r ∈ (pDoctorRows fk n g).1, P r := by
  intro n
  induction n with
  | zero => intro g r hr; simp [pDoctorRows] at hr
  | succ n ih =>
    intro g r hr
    simp only [pDoctorRows, List.mem_cons] at hr
    rcases hr with hr | hr
    · rw [hr]; exact hP g
    · exact ih _ _ hr

theorem licRowsAux_forall (fk : Fake) (d : Nat) (P : LicenseRow → Prop)
    (hP : ∀ g, P (mkLicense fk d g).1) :
    ∀ (k : Nat) (g : Rng), ∀ r ∈ (licRowsAux fk d k g).1, P r := by
  intro k
  induction k with
  | zero => intro g r hr; simp [licRowsAux] at hr
  | succ k ih =>
    intro g r hr
    simp only [licRowsAux, List.mem_cons] at hr
    rcases hr with hr | hr
    · rw [hr]; exact hP g
    · exact ih _ _ hr

theorem affRowsAux_forall (fk : Fake) (d : Nat) (P : AffilRow → Prop)
    (hP : ∀ pid b g, P (mkAffil fk d pid b g).1) :
    ∀ (l : List Nat) (i : Nat) (g : Rng), ∀ r ∈ (affRowsAux fk d l i g).1, P r := by
  intro l
  induction l with
  | nil => intro i g r hr; simp [affRowsAux] at hr
  | cons pid rest ih =>
    intro i g r hr
    simp only [affRowsAux, List.mem_cons] at hr
    rcases hr with hr | hr
    · rw [hr]; exact hP pid (i == 0) g
    · exact ih _ _ _ hr

theorem pLicenses_forall (fk : Fake) (maxL : Nat) (P : LicenseRow → Prop)
    (hP : ∀ d g, P (mkLicense fk d g).1) :
    ∀ (ds : List Nat) (g : Rng), ∀ r ∈ (pLicenses fk maxL ds g).1, P r := by
  intro ds
  induction ds with
  | nil => intro g r hr; simp [pLicenses] at hr
  | cons d ds ih =>
    intro g r hr
    simp only [pLicenses, List.mem_append] at hr
    rcases hr with hr | hr
    · exact licRowsAux_forall fk d P (hP d) _ _ r hr
    · exact ih _ _ hr

theorem pAffils_forall (fk : Fake) (maxP : Nat) (pids : List Nat) (P : AffilRow → Prop)
    (hP : ∀ d pid b g, P (mkAffil fk d pid b g).1) :
    ∀ (ds : List Nat) (g : Rng), ∀ r ∈ (pAffils fk maxP pids ds g).1, P r := by
  intro ds
  induction ds with
  | nil => intro g r hr; simp [pAffils] at hr
  | cons d ds ih =>
    intro g r hr
    simp only [pAffils, List.mem_append] at hr
    rcases hr with hr | hr
    · exact affRowsAux_forall fk d P (hP d) _ _ _ r hr
    · exact ih _ _ hr

/-! Per-doctor block structure of the license and affiliation streams. -/

theorem licRowsAux_length (fk : Fake) (d : Nat) :
    ∀ (k : Nat) (g : Rng), (licRowsAux fk d k g).1.length = k := by
  intro k
  induction k with
  | zero => intro g; simp [licRowsAux]
  | succ k ih => intro g; simp [licRowsAux, ih]

theorem affRowsAux_length (fk : Fake) (d : Nat) :
    ∀ (l : List Nat) (i : Nat) (g : Rng), (affRowsAux fk d l i g).1.length = l.length := by
  intro l
  induction l with
  | nil => intro i g; simp [affRowsAux]
  | cons pid rest ih => intro i g; simp [affRowsAux, ih]

theorem affRowsAux_pids (fk : Fake) (d : Nat) :
    ∀ (l : List Nat) (i : Nat) (g : Rng),
      (affRowsAux fk d l i g).1.map (fun r => r.practiceId) = l := by
  intro l
  induction l with
  | nil => intro i g; simp [affRowsAux]
  | cons pid rest ih =>
    intro i g
    simp only [affRowsAux, List.map_cons, ih]
    rw [(mkAffil_ids fk d pid (i == 0) g).2.1]

theorem affRowsAux_not_primary (fk : Fake) (d : Nat) :
    ∀ (l : List Nat) (i : Nat) (g : Rng), i ≠ 0 →
      ∀ r ∈ (affRowsAux fk d l i g).1, r.isPrimary = false := by
  intro l
  induction l with
  | nil => intro i g _ r hr; simp [affRowsAux] at hr
  | cons pid rest ih =>
    intro i g hi r hr
    simp only [affRowsAux, List.mem_cons] at hr
    rcases hr with hr | hr
    · rw [hr, (mkAffil_ids fk d pid (i == 0) g).2.2]
      simpa using hi
    · exact ih (i + 1) _ (by omega) r hr

theorem pLicenses_doctorId (fk : Fake) (maxL : Nat) :
    ∀ (ds : List Nat) (g : Rng), ∀ r ∈ (pLicenses fk maxL ds g).1, r.doctorId ∈ ds := by
  intro ds
  induction ds with
  | nil => intro g r hr; simp [pLicenses] at hr
  | cons d ds ih =>
    intro g r hr
    simp only [pLicenses, List.mem_append] at hr
    rcases hr with hr | hr
    · have := licRowsAux_forall fk d (fun r => r.doctorId = d)
        (fun g' => mkLicense_doctorId fk d g') _ _ r hr
      simp [this]
    · exact List.mem_cons_of_mem _ (ih _ r hr)

theorem pAffils_doctorId (fk : Fake) (maxP : Nat) (pids : List Nat) :
    ∀ (ds : List Nat) (g : Rng), ∀ r ∈ (pAffils fk maxP pids ds g).1, r.doctorId ∈ ds := by
  intro ds
  induction ds with
  | nil => intro g r hr; simp [pAffils] at hr
  | cons d ds ih =>
    intro g r hr
    simp only [pAffils, List.mem_append] at hr
    rcases hr with hr | hr
    · have := affRowsAux_forall fk d (fun r => r.doctorId = d)
        (fun pid b g' => (mkAffil_ids fk d pid b g').1) _ _ _ r hr
      simp [this]
    · exact List.mem_cons_of_mem _ (ih _ r hr)

theorem pLicenses_filter_eq (fk : Fake) (maxL : Nat) :
    ∀ (ds : List Nat) (g : Rng), ds.Nodup → ∀ d ∈ ds,
      ∃ g1, (pLicenses fk maxL ds g).1.filter (fun r => r.doctorId == d)
        = (licRowsAux fk d (randint 1 maxL g1).1 (randint 1 maxL g1).2).1 := by
  intro ds
  induction ds with
  | nil => intro g _ d hd; simp at hd
  | cons d0 ds ih =>
    intro g hn d hd
    obtain ⟨hd0, hnds⟩ := List.nodup_cons.mp hn
    simp only [pLicenses, List.filter_append]
    rcases List.mem_cons.mp hd with he | hm
    · subst he
      have hblock : List.filter (fun r => r.doctorId == d)
            (licRowsAux fk d (randint 1 maxL g).1 (randint 1 maxL g).2).1
          = (licRowsAux fk d (randint 1 maxL g).1 (randint 1 maxL g).2).1 :=
        List.filter_eq_self.mpr (fun r hr => by
          have hid := licRowsAux_forall fk d (fun r => r.doctorId = d)
            (fun g' => mkLicense_doctorId fk d g') _ _ r hr
          simp [hid])
      have hrest : List.filter (fun r => r.doctorId == d)
            (pLicenses fk maxL ds (licRowsAux fk d (randint 1 maxL g).1 (randint 1 maxL g).2).2).1
          = [] :=
        List.filter_eq_nil_iff.mpr (fun r hr => by
          have hid := pLicenses_doctorId fk maxL ds _ r hr
          simp only [beq_iff_eq]
          intro he
          rw [he] at hid
          exact hd0 hid)
      rw [hblock, hrest, List.append_nil]
      exact ⟨g, rfl⟩
    · have hblock0 : List.filter (fun r => r.doctorId == d)
            (licRowsAux fk d0 (randint 1 maxL g).1 (randint 1 maxL g).2).1 = [] :=
        List.filter_eq_nil_iff.mpr (fun r hr => by
          have hid := licRowsAux_forall fk d0 (fun r => r.doctorId = d0)
            (fun g' => mkLicense_doctorId fk d0 g') _ _ r hr
          simp only [] at hid
          simp only [beq_iff_eq]
          intro he
          rw [he] at hid
          rw [hid] at hm
          exact hd0 hm)
      rw [hblock0, List.nil_append]
      exact ih _ hnds d hm

theorem pAffils_filter_eq (fk : Fake) (maxP : Nat) (pids : List Nat) :
    ∀ (ds : List Nat) (g : Rng), ds.Nodup → ∀ d ∈ ds,
      ∃ g1, (pAffils fk maxP pids ds g).1.filter (fun r => r.doctorId == d)
        = (affRowsAux fk d
            (sample pids (min (randint 1 maxP g1).1 pids.length) (randint 1 maxP g1).2).1 0
            (sample pids (min (randint 1 maxP g1).1 pids.length) (randint 1 maxP g1).2).2).1 := by
  intro ds
  induction ds with
  | nil => intro g _ d hd; simp at hd
  | cons d0 ds ih =>
    intro g hn d hd
    obtain ⟨hd0, hnds⟩ := List.nodup_cons.mp hn
    simp only [pAffils, List.filter_append]
    rcases List.mem_cons.mp hd with he | hm
    · subst he
      have hblock : List.filter (fun r => r.doctorId == d)
            (affRowsAux fk d
              (sample pids (min (randint 1 maxP g).1 pids.length) (randint 1 maxP g).2).1 0
              (sample pids (min (randint 1 maxP g).1 pids.length) (randint 1 maxP g).2).2).1
          = (affRowsAux fk d
              (sample pids (min (randint 1 maxP g).1 pids.length) (randint 1 maxP g).2).1 0
              (sample pids (min (randint 1 maxP g).1 pids.length) (randint 1 maxP g).2).2).1 :=
        List.filter_eq_self.mpr (fun r hr => by
          have hid := affRowsAux_forall fk d (fun r => r.doctorId = d)
            (fun pid b g' => (mkAffil_ids fk d pid b g').1) _ _ _ r hr
          simp [hid])
      have hrest : List.filter (fun r => r.doctorId == d)
            (pAffils fk maxP pids ds
              (affRowsAux fk d
                (sample pids (min (randint 1 maxP g).1 pids.length) (randint 1 maxP g).2).1 0
                (sample pids (min (randint 1 maxP g).1 pids.length) (randint 1 maxP g).2).2).2).1
          = [] :=
        List.filter_eq_nil_iff.mpr (fun r hr => by
          have hid := pAffils_doctorId fk maxP pids ds _ r hr
          simp only [beq_iff_eq]
          intro he
          rw [he] at hid
          exact hd0 hid)
      rw [hblock, hrest, List.append_nil]
      exact ⟨g, rfl⟩
    · have hblock0 : List.filter (fun r => r.doctorId == d)
            (affRowsAux fk d0
              (sample pids (min (randint 1 maxP g).1 pids.length) (randint 1 maxP g).2).1 0
              (sample pids (min (randint 1 maxP g).1 pids.length) (randint 1 maxP g).2).2).1 = [] :=
        List.filter_eq_nil_iff.mpr (fun r hr => by
          have hid := affRowsAux_forall fk d0 (fun r => r.doctorId = d0)
            (fun pid b g' => (mkAffil_ids fk d0 pid b g').1) _ _ _ r hr
          simp only [] at hid
          simp only [beq_iff_eq]
          intro he
          rw [he] at hid
          rw [hid] at hm
          exact hd0 hm)
      rw [hblock0, List.nil_append]
      exact ih _ hnds d hm

/-! Remaining support lemmas. -/

theorem pPracticeRows_length (fk : Fake) :
    ∀ (n : Nat) (g : Rng), (pPracticeRows fk n g).1.length = n := by
  intro n
  induction n with
  | zero => intro g; simp [pPracticeRows]
  | succ n ih => intro g; simp [pPracticeRows, ih]

theorem pDoctorRows_length (fk : Fake) :
    ∀ (n : Nat) (g : Rng), (pDoctorRows fk n g).1.length = n := by
  intro n
  induction n with
  | zero => intro g; simp [pDoctorRows]
  | succ n ih => intro g; simp [pDoctorRows, ih]

theorem affOuter_empty_pids (fk : Fake) (maxP bs : Nat) :
    ∀ (ds : List Nat) (batch : List AffilRow) (s : Sink) (g : Rng),
      ∃ g', affOuter fk maxP bs [] ds batch s g = .ok (batch, s, g') := by
  intro ds
  induction ds with
  | nil => intro batch s g; exact ⟨g, by simp [affOuter]⟩
  | cons d ds ih =>
    intro batch s g
    obtain ⟨g', he⟩ := ih batch s (randint 1 maxP g).2
    refine ⟨g', ?_⟩
    conv_lhs => simp only [affOuter]
    simp only [List.length_nil, Nat.min_zero, sample, affInner]
    exact he

theorem pAffils_nil (fk : Fake) (maxP : Nat) :
    ∀ (ds : List Nat) (g : Rng), (pAffils fk maxP [] ds g).1 = [] := by
  intro ds
  induction ds with
  | nil => intro g; simp [pAffils]
  | cons d ds ih =>
    intro g
    simp only [pAffils, List.length_nil, Nat.min_zero, sample, affRowsAux]
    simpa using ih (randint 1 maxP g).2

/-! The claims. -/

/-- C7: if the practice identifier set is empty, the affiliation stage
returns successfully with the sink completely unchanged — every doctor
yields exactly zero affiliation rows and no error is raised (the requested
sample count is clamped to the number of available practice identifiers);
the reference row stream is empty as well. -/
theorem c7_empty_practice_ids (fk : Fake) (maxP bs : Nat) (ds : List Nat)
    (s : Sink) (g : Rng) :
    (∃ g', generate_doctor_practices fk maxP bs ds ([] : List Nat) s g = .ok (s, g')) ∧
    (pAffils fk maxP ([] : List Nat) ds g).1 = [] := by
  refine ⟨?_, pAffils_nil fk maxP ds g⟩
  obtain ⟨g', he⟩ := affOuter_empty_pids fk maxP bs ds [] s g
  refine ⟨g', ?_⟩
  unfold generate_doctor_practices
  rw [he]
  simp

/-- C9: when confirmation is withheld (any answer whose lowercasing is not
the single letter y), `main` goes straight to the cancelled outcome and the
sink is returned untouched: the clear step and all four generation stages
are never invoked. -/
theorem c9_confirmation_withheld (cfg : Config) (fk : Fake) (ans : String)
    (s : Sink) (g : Rng) (hans : pyLower ans ≠ ("y")) :
    main cfg fk true ans s g = (.cancelled, s) := by
  unfold main
  rw [if_neg (by simp)]
  rw [if_pos hans]

theorem c9_confirmation_withheld_witness :
    pyLower ("n") ≠ ("y") ∧ main defaultConfig fkW true ("n") sNF g0 = (.cancelled, sNF) :=
  ⟨by decide, c9_confirmation_withheld defaultConfig fkW ("n") sNF g0 (by decide)⟩

/-- C1: after a successful affiliation run from a cleared table over
pairwise-distinct doctor identifiers, each doctor's rows (in insertion
order) have the primary flag on the first row and on no other: exactly one
primary when the doctor has any affiliation, zero when it has none. -/
theorem c1_primary_flag_unique (fk : Fake) (maxP bs : Nat) (ds pids : List Nat)
    (s : Sink) (g : Rng) (s' : Sink) (g' : Rng)
    (hnf : noFail s) (hds : ds.Nodup) (hempty : s.doctorPractices = [])
    (hrun : generate_doctor_practices fk maxP bs ds pids s g = .ok (s', g')) :
    ∀ d ∈ ds,
      match s'.doctorPractices.filter (fun r => r.doctorId == d) with
      | [] => True
      | r :: rest => r.isPrimary = true ∧ ∀ r2 ∈ rest, r2.isPrimary = false := by
  obtain ⟨s2, he, haf, -, -, -, -⟩ := generate_doctor_practices_ok fk maxP bs ds pids s g hnf
  have hss : s' = s2 ∧ g' = (pAffils fk maxP pids ds g).2 := by
    have := hrun.symm.trans he
    simpa [Prod.mk.injEq] using this
  obtain ⟨hs2, -⟩ := hss
  subst hs2
  intro d hd
  rw [haf, hempty, List.nil_append]
  obtain ⟨g1, hfe⟩ := pAffils_filter_eq fk maxP pids ds g hds d hd
  rw [hfe]
  cases hch : (sample pids (min (randint 1 maxP g1).1 pids.length) (randint 1 maxP g1).2).1 with
  | nil => simp [affRowsAux]
  | cons p rest =>
    simp only [affRowsAux]
    refine ⟨?_, ?_⟩
    · rw [(mkAffil_ids fk d p ((0 : Nat) == 0) _).2.2]
      rfl
    · intro r2 hr2
      exact affRowsAux_not_primary fk d rest 1 _ (by omega) r2 hr2

theorem c1_primary_flag_unique_witness :
    noFail sNF ∧ ([7] : List Nat).Nodup ∧
    (match runA.1.doctorPractices.filter (fun r => r.doctorId == 7) with
      | [] => True
      | r :: rest => r.isPrimary = true ∧ ∀ r2 ∈ rest, r2.isPrimary = false) :=
  ⟨fun _ => rfl, by decide,
   c1_primary_flag_unique fkW 3 100000 [7] [1, 2] sNF gC3 runA.1 runA.2
     (fun _ => rfl) (by decide) rfl rfl 7 (by decide)⟩

/-- C3 counterexample: in the concrete affiliation run `runA` the claim
"non-null end date is strictly greater than the start date and within 2
years after the start date" fails twice over: one generated row has its end
date equal to its start date, another has its end date more than 730 days
after its start date; hence not every row satisfies the claimed bound. -/
theorem c3_end_date_counterexample :
    (runA.1.doctorPractices.any (fun r => r.endDate == some r.startDate)) = true ∧
    (runA.1.doctorPractices.any (fun r =>
      match r.endDate with
      | some e => decide (r.startDate + 730 < e)
      | none => false)) = true ∧
    (runA.1.doctorPractices.all (fun r =>
      match r.endDate with
      | none => true
      | some e => decide (r.startDate < e) && decide (e ≤ r.startDate + 730))) = false := by
  refine ⟨?_, ?_, ?_⟩ <;> rfl

/-- C3 amended: for every generated affiliation row with a non-null end
date, the end date is greater than or equal to the start date (equality is
possible) and is at most two years after the generation date — not after
the start date: in the source the end date is drawn from
`date_between(start_date, "+2y")`, whose upper bound is relative to today. -/
theorem c3_end_date_amended (fk : Fake) (maxP bs : Nat) (ds pids : List Nat)
    (s : Sink) (g : Rng) (s' : Sink) (g' : Rng)
    (hnf : noFail s) (hempty : s.doctorPractices = [])
    (hrun : generate_doctor_practices fk maxP bs ds pids s g = .ok (s', g')) :
    ∀ r ∈ s'.doctorPractices, ∀ e, r.endDate = some e →
      r.startDate ≤ e ∧ e ≤ 730 := by
  obtain ⟨s2, he, haf, -, -, -, -⟩ := generate_doctor_practices_ok fk maxP bs ds pids s g hnf
  have hss : s' = s2 ∧ g' = (pAffils fk maxP pids ds g).2 := by
    have := hrun.symm.trans he
    simpa [Prod.mk.injEq] using this
  obtain ⟨hs2, -⟩ := hss
  subst hs2
  rw [haf, hempty, List.nil_append]
  exact pAffils_forall fk maxP pids
    (fun r => ∀ e, r.endDate = some e → r.startDate ≤ e ∧ e ≤ 730)
    (fun d pid b g2 => (mkAffil_dates fk d pid b g2).2.2) ds g

theorem c3_end_date_amended_witness :
    noFail sNF ∧
    (∀ r ∈ runA.1.doctorPractices, ∀ e, r.endDate = some e →
      r.startDate ≤ e ∧ e ≤ 730) :=
  ⟨fun _ => rfl,
   c3_end_date_amended fkW 3 100000 [7] [1, 2] sNF gC3 runA.1 runA.2
     (fun _ => rfl) rfl rfl⟩

/-- C6: every license generated by a successful run from a cleared table
has an expiry date strictly greater than its issue date — the expiry date
is the issue date plus between 365 and 3650 days (1 to 10 years) — and an
issue date inside the configured lookback window of 15 years ending at the
generation date. -/
theorem c6_license_dates (fk : Fake) (maxL bs : Nat) (ds : List Nat)
    (s : Sink) (g : Rng) (s' : Sink) (g' : Rng)
    (hnf : noFail s) (hempty : s.licenses = [])
    (hrun : generate_licenses fk maxL bs ds s g = .ok (s', g')) :
    ∀ r ∈ s'.licenses,
      r.issueDate < r.expiryDate ∧
      r.issueDate + 365 ≤ r.expiryDate ∧ r.expiryDate ≤ r.issueDate + 3650 ∧
      -5475 ≤ r.issueDate ∧ r.issueDate ≤ 0 := by
  obtain ⟨s2, he, hlic, -, -, -, -⟩ := generate_licenses_ok fk maxL bs ds s g hnf
  have hss : s' = s2 ∧ g' = (pLicenses fk maxL ds g).2 := by
    have := hrun.symm.trans he
    simpa [Prod.mk.injEq] using this
  obtain ⟨hs2, -⟩ := hss
  subst hs2
  rw [hlic, hempty, List.nil_append]
  refine pLicenses_forall fk maxL _ (fun d g2 => ?_) ds g
  have hdt := mkLicense_dates fk d g2
  exact ⟨by omega, by omega, by omega, hdt.1, hdt.2.1⟩

theorem c6_license_dates_witness :
    noFail sNF ∧
    (∀ r ∈ runL.1.licenses,
      r.issueDate < r.expiryDate ∧
      r.issueDate + 365 ≤ r.expiryDate ∧ r.expiryDate ≤ r.issueDate + 3650 ∧
      -5475 ≤ r.issueDate ∧ r.issueDate ≤ 0) :=
  ⟨fun _ => rfl,
   c6_license_dates fkW 3 100000 [7] sNF g0 runL.1 runL.2 (fun _ => rfl) rfl rfl⟩

/-- C10: every license generated by a successful run from a cleared table
has a license number of the shape state code, dash, six decimal digits,
dash, three ASCII letters, and the state prefix is the very string stored
in the row's issuing-state column (both come from the same single draw). -/
theorem c10_license_number_shape (fk : Fake) (maxL bs : Nat) (ds : List Nat)
    (s : Sink) (g : Rng) (s' : Sink) (g' : Rng)
    (hnf : noFail s) (hempty : s.licenses = [])
    (hrun : generate_licenses fk maxL bs ds s g = .ok (s', g')) :
    ∀ r ∈ s'.licenses,
      ∃ dg lt, r.licenseNumber = r.state ++ ("-") ++ dg ++ ("-") ++ lt ∧
        dg.length = 6 ∧ (∀ c ∈ dg.data, c.isDigit = true) ∧
        lt.length = 3 ∧ (∀ c ∈ lt.data, c.isAlpha = true) := by
  obtain ⟨s2, he, hlic, -, -, -, -⟩ := generate_licenses_ok fk maxL bs ds s g hnf
  have hss : s' = s2 ∧ g' = (pLicenses fk maxL ds g).2 := by
    have := hrun.symm.trans he
    simpa [Prod.mk.injEq] using this
  obtain ⟨hs2, -⟩ := hss
  subst hs2
  rw [hlic, hempty, List.nil_append]
  exact pLicenses_forall fk maxL _ (fun d g2 => mkLicense_number fk d g2) ds g

theorem c10_license_number_shape_witness :
    noFail sNF ∧
    (∀ r ∈ runL.1.licenses,
      ∃ dg lt, r.licenseNumber = r.state ++ ("-") ++ dg ++ ("-") ++ lt ∧
        dg.length = 6 ∧ (∀ c ∈ dg.data, c.isDigit = true) ∧
        lt.length = 3 ∧ (∀ c ∈ lt.data, c.isAlpha = true)) :=
  ⟨fun _ => rfl,
   c10_license_number_shape fkW 3 100000 [7] sNF g0 runL.1 runL.2 (fun _ => rfl) rfl rfl⟩

set_option maxRecDepth 8192 in
/-- C4 counterexample: `generate_doctors` stores the doctor email exactly
as Faker produced it, with no `[:255]` truncation (gen_data.py line 129);
with an injected Faker returning a 256-character email, the run inserts a
doctor row whose stored email is longer than 255 characters, so the claim
that every width-limited field of every entity is truncated is false. -/
theorem c4_truncation_counterexample :
    (c4res.2.1.doctors.all (fun r => decide (r.email.length ≤ 255))) = false := by
  rfl

/-- C4 amended: truncation to the storage widths is applied to every
generated practice field with a maximum width (zip to 10, phone to 20,
email and website to 255 characters) and to the doctor phone (20
characters); the doctor email, however, is stored untruncated. -/
theorem c4_truncation_amended (fk : Fake) (m n bsP bsD : Nat) (s : Sink) (g : Rng)
    (pids : List Nat) (s1 : Sink) (g1 : Rng) (dids : List Nat) (s2 : Sink) (g2 : Rng)
    (hnf : noFail s) (hPempty : s.practices = []) (hDempty : s.doctors = [])
    (hrunP : generate_practices fk m bsP s g = .ok (pids, s1, g1))
    (hrunD : generate_doctors fk n bsD s1 g1 = .ok (dids, s2, g2)) :
    (∀ r ∈ s2.practices, r.zipCode.length ≤ 10 ∧ r.phone.length ≤ 20 ∧
      r.email.length ≤ 255 ∧ ∀ w, r.website = some w → w.length ≤ 255) ∧
    (∀ r ∈ s2.doctors, r.phone.length ≤ 20) := by
  obtain ⟨s1x, heP, hpr, hdoc, -, -, hfP⟩ := generate_practices_ok fk m bsP s g hnf
  have hs1 : s1 = s1x ∧ pids = idsFrom s.practices.length m ∧ g1 = (pPracticeRows fk m g).2 := by
    have := hrunP.symm.trans heP
    simp only [Except.ok.injEq, Prod.mk.injEq] at this
    exact ⟨this.2.1, this.1, this.2.2⟩
  obtain ⟨hs1e, -, -⟩ := hs1
  subst hs1e
  obtain ⟨s2x, heD, hdr, hpr2, -, -, -⟩ := generate_doctors_ok fk n bsD s1 g1 (noFail_congr hfP hnf)
  have hs2 : s2 = s2x := by
    have := hrunD.symm.trans heD
    simp only [Except.ok.injEq, Prod.mk.injEq] at this
    exact this.2.1
  subst hs2
  constructor
  · rw [hpr2, hpr, hPempty, List.nil_append]
    exact pPracticeRows_forall fk _ (fun g2 => mkPractice_truncated fk g2) m g
  · rw [hdr, hdoc, hDempty, List.nil_append]
    exact pDoctorRows_forall fk _ (fun g2 => mkDoctor_phone fk g2) n g1

theorem c4_truncation_amended_witness :
    noFail sNF ∧
    ((∀ r ∈ (match generate_doctors fkW 2 3
          (match generate_practices fkW 3 2 sNF g0 with
            | .ok r0 => r0.2.1
            | .error s1 => s1)
          (match generate_practices fkW 3 2 sNF g0 with
            | .ok r0 => r0.2.2
            | .error _ => g0) with
        | .ok r0 => r0.2.1
        | .error s1 => s1).practices, r.zipCode.length ≤ 10 ∧ r.phone.length ≤ 20 ∧
        r.email.length ≤ 255 ∧ ∀ w, r.website = some w → w.length ≤ 255) ∧
    (∀ r ∈ (match generate_doctors fkW 2 3
          (match generate_practices fkW 3 2 sNF g0 with
            | .ok r0 => r0.2.1
            | .error s1 => s1)
          (match generate_practices fkW 3 2 sNF g0 with
            | .ok r0 => r0.2.2
            | .error _ => g0) with
        | .ok r0 => r0.2.1
        | .error s1 => s1).doctors, r.phone.length ≤ 20)) :=
  ⟨fun _ => rfl,
   c4_truncation_amended fkW 3 2 2 3 sNF g0 _ _ _ _ _ _ (fun _ => rfl) rfl rfl rfl rfl⟩

/-- C5: over pairwise-distinct doctor identifiers and pairwise-distinct
practice identifiers, a successful license run from a cleared table gives
every doctor between 1 and `maxLicensesPerDoctor` licenses, and a
successful affiliation run from a cleared table gives every doctor at most
`min maxPracticesPerDoctor practiceCount` affiliations (and at least zero,
trivially), with no practice identifier repeated within one doctor's
affiliation rows. -/
theorem c5_per_doctor_cardinalities (fk : Fake) (maxL maxP bsL bsA : Nat)
    (ds pids : List Nat) (sL sA : Sink) (gL gA : Rng)
    (sL' : Sink) (gL' : Rng) (sA' : Sink) (gA' : Rng)
    (hmaxL : 1 ≤ maxL) (hmaxP : 1 ≤ maxP) (hds : ds.Nodup) (hpids : pids.Nodup)
    (hnfL : noFail sL) (hnfA : noFail sA)
    (hLempty : sL.licenses = []) (hAempty : sA.doctorPractices = [])
    (hrunL : generate_licenses fk maxL bsL ds sL gL = .ok (sL', gL'))
    (hrunA : generate_doctor_practices fk maxP bsA ds pids sA gA = .ok (sA', gA')) :
    ∀ d ∈ ds,
      (1 ≤ (sL'.licenses.filter (fun r => r.doctorId == d)).length ∧
       (sL'.licenses.filter (fun r => r.doctorId == d)).length ≤ maxL) ∧
      ((sA'.doctorPractices.filter (fun r => r.doctorId == d)).length ≤ min maxP pids.length ∧
       ((sA'.doctorPractices.filter (fun r => r.doctorId == d)).map
          (fun r => r.practiceId)).Nodup) := by
  obtain ⟨sL2, heL, hlic, -, -, -, -⟩ := generate_licenses_ok fk maxL bsL ds sL gL hnfL
  have hssL : sL' = sL2 := by
    have := hrunL.symm.trans heL
    simp only [Except.ok.injEq, Prod.mk.injEq] at this
    exact this.1
  subst hssL
  obtain ⟨sA2, heA, haff, -, -, -, -⟩ :=
    generate_doctor_practices_ok fk maxP bsA ds pids sA gA hnfA
  have hssA : sA' = sA2 := by
    have := hrunA.symm.trans heA
    simp only [Except.ok.injEq, Prod.mk.injEq] at this
    exact this.1
  subst hssA
  intro d hd
  rw [hlic, hLempty, List.nil_append, haff, hAempty, List.nil_append]
  obtain ⟨g1, hfeL⟩ := pLicenses_filter_eq fk maxL ds gL hds d hd
  obtain ⟨g2, hfeA⟩ := pAffils_filter_eq fk maxP pids ds gA hds d hd
  rw [hfeL, hfeA]
  have hk := randint_bounds 1 maxL g1 hmaxL
  have hk2 := randint_bounds 1 maxP g2 hmaxP
  refine ⟨⟨?_, ?_⟩, ?_, ?_⟩
  · rw [licRowsAux_length]
    exact hk.1
  · rw [licRowsAux_length]
    exact hk.2
  · rw [affRowsAux_length, sample_length]
    omega
  · rw [affRowsAux_pids]
    exact sample_nodup _ _ _ hpids

theorem c5_per_doctor_cardinalities_witness :
    1 ≤ 3 ∧ ([7] : List Nat).Nodup ∧ ([1, 2] : List Nat).Nodup ∧ noFail sNF ∧
    ((1 ≤ (runL.1.licenses.filter (fun r => r.doctorId == 7)).length ∧
      (runL.1.licenses.filter (fun r => r.doctorId == 7)).length ≤ 3) ∧
     ((runA.1.doctorPractices.filter (fun r => r.doctorId == 7)).length
        ≤ min 3 ([1, 2] : List Nat).length ∧
      ((runA.1.doctorPractices.filter (fun r => r.doctorId == 7)).map
         (fun r => r.practiceId)).Nodup)) :=
  ⟨by omega, by decide, by decide, fun _ => rfl,
   c5_per_doctor_cardinalities fkW 3 3 100000 100000 [7] [1, 2] sNF sNF g0 gC3
     runL.1 runL.2 runA.1 runA.2 (by omega) (by omega) (by decide) (by decide)
     (fun _ => rfl) (fun _ => rfl) rfl rfl rfl rfl 7 (by decide)⟩

/-- C2: from a cleared sink whose flushes never fail, the practice stage
then the doctor stage succeed for every target count and every batch size
(the final batch may be partial): the sink ends up with exactly the `m`
generated practice rows and exactly the `n` generated doctor rows, in
generation order with nothing dropped or duplicated, and the captured
identifier lists are exactly the `m` (resp. `n`) consecutive
server-assigned identifiers, pairwise distinct. -/
theorem c2_row_counts_roundtrip (fk : Fake) (m n bsP bsD : Nat) (s : Sink) (g : Rng)
    (hnf : noFail s) (hPempty : s.practices = []) (hDempty : s.doctors = []) :
    ∃ pids s1 g1 dids s2 g2,
      generate_practices fk m bsP s g = .ok (pids, s1, g1) ∧
      generate_doctors fk n bsD s1 g1 = .ok (dids, s2, g2) ∧
      s1.practices = (pPracticeRows fk m g).1 ∧
      s2.practices = (pPracticeRows fk m g).1 ∧
      s2.doctors = (pDoctorRows fk n g1).1 ∧
      s2.practices.length = m ∧ s2.doctors.length = n ∧
      pids = idsFrom 0 m ∧ dids = idsFrom 0 n ∧
      pids.length = m ∧ dids.length = n ∧ pids.Nodup ∧ dids.Nodup := by
  obtain ⟨s1, heP, hpr, hdoc, -, -, hfP⟩ := generate_practices_ok fk m bsP s g hnf
  obtain ⟨s2, heD, hdr, hpr2, -, -, -⟩ :=
    generate_doctors_ok fk n bsD s1 (pPracticeRows fk m g).2 (noFail_congr hfP hnf)
  refine ⟨idsFrom s.practices.length m, s1, (pPracticeRows fk m g).2,
          idsFrom s1.doctors.length n, s2, (pDoctorRows fk n (pPracticeRows fk m g).2).2,
          heP, heD, ?_, ?_, ?_, ?_, ?_, ?_, ?_, ?_, ?_, ?_, ?_⟩
  · rw [hpr, hPempty, List.nil_append]
  · rw [hpr2, hpr, hPempty, List.nil_append]
  · rw [hdr, hdoc, hDempty, List.nil_append]
  · rw [hpr2, hpr, hPempty, List.nil_append, pPracticeRows_length]
  · rw [hdr, hdoc, hDempty, List.nil_append, pDoctorRows_length]
  · rw [hPempty]
    rfl
  · rw [hdoc, hDempty]
    rfl
  · exact idsFrom_length m _
  · exact idsFrom_length n _
  · exact idsFrom_nodup m _
  · exact idsFrom_nodup n _

theorem c2_row_counts_roundtrip_witness :
    noFail sNF ∧
    (∃ pids s1 g1 dids s2 g2,
      generate_practices fkW 3 2 sNF g0 = .ok (pids, s1, g1) ∧
      generate_doctors fkW 2 3 s1 g1 = .ok (dids, s2, g2) ∧
      s1.practices = (pPracticeRows fkW 3 g0).1 ∧
      s2.practices = (pPracticeRows fkW 3 g0).1 ∧
      s2.doctors = (pDoctorRows fkW 2 g1).1 ∧
      s2.practices.length = 3 ∧ s2.doctors.length = 2 ∧
      pids = idsFrom 0 3 ∧ dids = idsFrom 0 2 ∧
      pids.length = 3 ∧ dids.length = 2 ∧ pids.Nodup ∧ dids.Nodup) :=
  ⟨fun _ => rfl, c2_row_counts_roundtrip fkW 3 2 2 3 sNF g0 (fun _ => rfl) rfl rfl⟩

/-- C8: whichever stage's batch flush raises, the run terminates at once
with the flush-error outcome and the sink exactly as the failed stage left
it — no retry, no skip, no rollback: every batch committed before the
failure is still persisted (the error sink extends the prior sink on the
failing stage's own table and agrees with it on every other table), and no
later stage is ever attempted (the tables of later stages are still empty
from the initial clear). The four conjuncts cover a flush failure in the
practice, doctor, license and affiliation stage respectively. -/
theorem c8_flush_failure_fatal (cfg : Config) (fk : Fake) (ans : String)
    (s0 : Sink) (g : Rng) (hans : pyLower ans = ("y")) :
    (∀ sErr,
      generate_practices fk cfg.numPractices cfg.practiceBatchSize (clear_tables s0) g
          = .error sErr →
      main cfg fk true ans s0 g = (.flushError, sErr) ∧
      sErr.doctors = [] ∧ sErr.licenses = [] ∧ sErr.doctorPractices = [] ∧
      (∃ t, sErr.practices = t)) ∧
    (∀ pids s2 g1 sErr,
      generate_practices fk cfg.numPractices cfg.practiceBatchSize (clear_tables s0) g
          = .ok (pids, s2, g1) →
      generate_doctors fk cfg.numDoctors cfg.doctorBatchSize s2 g1 = .error sErr →
      main cfg fk true ans s0 g = (.flushError, sErr) ∧
      sErr.practices = s2.practices ∧ sErr.licenses = [] ∧ sErr.doctorPractices = [] ∧
      (∃ t, sErr.doctors = s2.doctors ++ t)) ∧
    (∀ pids s2 g1 dids s3 g2 sErr,
      generate_practices fk cfg.numPractices cfg.practiceBatchSize (clear_tables s0) g
          = .ok (pids, s2, g1) →
      generate_doctors fk cfg.numDoctors cfg.doctorBatchSize s2 g1 = .ok (dids, s3, g2) →
      generate_licenses fk cfg.maxLicensesPerDoctor cfg.licenseBatchSize dids s3 g2
          = .error sErr →
      main cfg fk true ans s0 g = (.flushError, sErr) ∧
      sErr.practices = s3.practices ∧ sErr.doctors = s3.doctors ∧
      sErr.doctorPractices = [] ∧ (∃ t, sErr.licenses = s3.licenses ++ t)) ∧
    (∀ pids s2 g1 dids s3 g2 s4 g3 sErr,
      generate_practices fk cfg.numPractices cfg.practiceBatchSize (clear_tables s0) g
          = .ok (pids, s2, g1) →
      generate_doctors fk cfg.numDoctors cfg.doctorBatchSize s2 g1 = .ok (dids, s3, g2) →
      generate_licenses fk cfg.maxLicensesPerDoctor cfg.licenseBatchSize dids s3 g2
          = .ok (s4, g3) →
      generate_doctor_practices fk cfg.maxPracticesPerDoctor cfg.affiliationBatchSize
          dids pids s4 g3 = .error sErr →
      main cfg fk true ans s0 g = (.flushError, sErr) ∧
      sErr.practices = s4.practices ∧ sErr.doctors = s4.doctors ∧
      sErr.licenses = s4.licenses ∧
      (∃ t, sErr.doctorPractices = s4.doctorPractices ++ t)) := by
  have hmain0 : ∀ x, x = main cfg fk true ans s0 g →
      x = (match generate_practices fk cfg.numPractices cfg.practiceBatchSize
              (clear_tables s0) g with
           | .error s => ((.flushError : Outcome), s)
           | .ok rp =>
             match generate_doctors fk cfg.numDoctors cfg.doctorBatchSize rp.2.1 rp.2.2 with
             | .error s => (.flushError, s)
             | .ok rd =>
               match generate_licenses fk cfg.maxLicensesPerDoctor cfg.licenseBatchSize
                   rd.1 rd.2.1 rd.2.2 with
               | .error s => (.flushError, s)
               | .ok rl =>
                 match generate_doctor_practices fk cfg.maxPracticesPerDoctor
                     cfg.affiliationBatchSize rd.1 rp.1 rl.1 rl.2 with
                 | .error s => (.flushError, s)
                 | .ok ra => (.done, ra.1)) := by
    intro x hx
    rw [hx]
    unfold main
    rw [if_neg (by simp), if_neg (by rw [hans]; simp)]
  have hmain := hmain0 _ rfl
  refine ⟨?_, ?_, ?_, ?_⟩
  · intro sErr hp
    have hstep := (genPracticesAux_pracStep fk cfg.practiceBatchSize cfg.numPractices
      [] [] (clear_tables s0) g _ hp).2 sErr rfl
    refine ⟨?_, hstep.1, hstep.2.1, hstep.2.2.1, ⟨sErr.practices, rfl⟩⟩
    rw [hmain, hp]
  · intro pids s2 g1 sErr hp hd
    have hpstep := (genPracticesAux_pracStep fk cfg.practiceBatchSize cfg.numPractices
      [] [] (clear_tables s0) g _ hp).1 pids s2 g1 rfl
    have hdstep := (genDoctorsAux_docStep fk cfg.doctorBatchSize cfg.numDoctors
      [] [] s2 g1 _ hd).2 sErr rfl
    refine ⟨?_, hdstep.1, hdstep.2.1.trans hpstep.2.1, hdstep.2.2.1.trans hpstep.2.2.1,
            hdstep.2.2.2⟩
    rw [hmain, hp]
    simp only []
    rw [hd]
  · intro pids s2 g1 dids s3 g2 sErr hp hd hl
    have hpstep := (genPracticesAux_pracStep fk cfg.practiceBatchSize cfg.numPractices
      [] [] (clear_tables s0) g _ hp).1 pids s2 g1 rfl
    have hdstep := (genDoctorsAux_docStep fk cfg.doctorBatchSize cfg.numDoctors
      [] [] s2 g1 _ hd).1 dids s3 g2 rfl
    have hlstep := generate_licenses_err fk cfg.maxLicensesPerDoctor cfg.licenseBatchSize
      dids s3 g2 sErr hl
    refine ⟨?_, hlstep.1, hlstep.2.1,
            (hlstep.2.2.1.trans hdstep.2.2.1).trans hpstep.2.2.1, hlstep.2.2.2⟩
    rw [hmain, hp]
    simp only []
    rw [hd]
    simp only []
    rw [hl]
  · intro pids s2 g1 dids s3 g2 s4 g3 sErr hp hd hl ha
    have hastep := generate_doctor_practices_err fk cfg.maxPracticesPerDoctor
      cfg.affiliationBatchSize dids pids s4 g3 sErr ha
    refine ⟨?_, hastep.1, hastep.2.1, hastep.2.2.1, hastep.2.2.2⟩
    rw [hmain, hp]
    simp only []
    rw [hd]
    simp only []
    rw [hl]
    simp only []
    rw [ha]

theorem c8_flush_failure_fatal_witness :
    pyLower ("y") = ("y") ∧
    main cfgW fkW true ("y") s0W gW = (.flushError, w8e) ∧
    w8e.practices = w8d.2.1.practices ∧ w8e.doctors = w8d.2.1.doctors ∧
    w8e.doctorPractices = [] ∧ (∃ t, w8e.licenses = w8d.2.1.licenses ++ t) := by
  have h := (c8_flush_failure_fatal cfgW fkW ("y") s0W gW rfl).2.2.1
    w8p.1 w8p.2.1 w8p.2.2 w8d.1 w8d.2.1 w8d.2.2 w8e rfl rfl rfl
  exact ⟨rfl, h.1, h.2.1, h.2.2.1, h.2.2.2.1, h.2.2.2.2⟩

end GenData
